import Mathlib

/-!
# Node reference reconciliation

A shallow embedding of `controllers/machine_controller_noderef.go`
(`MachineReconciler.reconcileNodeRef` and `MachineReconciler.getNodeReference`).

* The Machine is passed in and returned (the Go code mutates it through a pointer).
* Every call to a collaborator (`Tracker.GetClient`, `client.Reader.List`,
  `recorder.Event`) is appended to an explicit list of calls, in program order.
* The `for` loop of `getNodeReference` has no bound in the source; the embedding
  takes a fuel argument counting loop iterations and returns `none` when it runs out.
* Logging (`r.Log`) has no influence on results and is left out.
-/

namespace NodeRef

/-! ## Data model -/

/-- A `time.Duration`: a signed number of nanoseconds. -/
abbrev Duration := Int

/-- The constant `time.Second`. -/
def Second : Duration := 1000000000

/-- A `metav1.Time`, reduced to the two components `IsZero` inspects. -/
structure Time where
  sec : Int
  nsec : Nat
deriving DecidableEq, Repr

/-- The method `(*metav1.Time).IsZero`: true for a nil pointer and for the zero instant. -/
def Time.IsZero : Option Time → Bool
  | none => true
  | some t => t.sec == 0 && t.nsec == 0

/-- An `apicorev1.ObjectReference` with all seven of its fields. -/
structure ObjectReference where
  Kind : String := ""
  Namespace : String := ""
  Name : String := ""
  UID : String := ""
  APIVersion : String := ""
  ResourceVersion : String := ""
  FieldPath : String := ""
deriving DecidableEq, Repr

/-- The part of `apicorev1.NodeSpec` read by the code. -/
structure NodeSpec where
  ProviderID : String
deriving DecidableEq, Repr

/-- An `apicorev1.Node`: type meta, object meta and spec fields read by the code. -/
structure Node where
  Kind : String
  APIVersion : String
  Name : String
  UID : String
  Spec : NodeSpec
deriving DecidableEq, Repr

/-- An `apicorev1.NodeList`: one page of Nodes and the cursor of the next page. -/
structure NodeList where
  Items : List Node := []
  Continue : String := ""
deriving DecidableEq, Repr

/-- The part of `clusterv1.MachineSpec` read by the code; `none` is a nil pointer. -/
structure MachineSpec where
  ProviderID : Option String
deriving DecidableEq, Repr

/-- The part of `clusterv1.MachineStatus` read and written by the code. -/
structure MachineStatus where
  NodeRef : Option ObjectReference
deriving DecidableEq, Repr

/-- A `clusterv1.Machine`. -/
structure Machine where
  Name : String
  Namespace : String
  DeletionTimestamp : Option Time
  Spec : MachineSpec
  Status : MachineStatus
deriving DecidableEq, Repr

/-- A `clusterv1.Cluster`: only its name and namespace are used. -/
structure Cluster where
  Name : String
  Namespace : String
deriving DecidableEq, Repr

/-- A `client.ObjectKey`. -/
structure ObjectKey where
  Namespace : String
  Name : String
deriving DecidableEq, Repr

/-- Modelled from the spec: `util.ObjectKey` is not among the sources; the spec says the
Cluster carries the identity needed to obtain a reader, which is its namespace and name. -/
def ObjectKeyOf (cluster : Cluster) : ObjectKey :=
  { Namespace := cluster.Namespace, Name := cluster.Name }

/-- A `context.Context`: either `context.TODO()` or a context handed in by a caller,
which may already be cancelled. -/
inductive Context where
  | TODO
  | request (cancelled : Bool)
deriving DecidableEq, Repr

/-! ## Errors -/

/-- An error object made by a collaborator (the provider ID parser, the cluster tracker
or the remote reader) for itself. -/
structure ExternalError where
  text : String
deriving DecidableEq, Repr

/-- The error values that flow through the two functions. -/
inductive Error where
  /-- The package variable `ErrNodeNotFound`. -/
  | ErrNodeNotFound
  /-- A `capierrors.RequeueAfterError` with its `RequeueAfter` field. -/
  | RequeueAfterError (RequeueAfter : Duration)
  /-- The result of `errors.Wrapf(cause, format, args...)`. -/
  | Wrapf (cause : Error) (format : String) (args : List String)
  /-- An error received from a collaborator, passed on as it is. -/
  | external (e : ExternalError)
deriving DecidableEq, Repr

/-- The error of a failed `List` call. A reader is any implementation of `client.Reader`
and hands back an error object that exists independently of this invocation: the exported
package variable `ErrNodeNotFound`, or an object of its own making. The object that
`errors.Wrapf` makes at line 70 is created by the invocation itself and cannot come from
a reader. -/
inductive ListError where
  | ErrNodeNotFound
  | other (e : ExternalError)
deriving DecidableEq, Repr

/-- The error of a failed `List` call as line 91 returns it: the same object. -/
def ListError.toError : ListError → Error
  | ListError.ErrNodeNotFound => Error.ErrNodeNotFound
  | ListError.other e => Error.external e

/-- The text of an event: a plain string, or the string `err.Error()` of an error. -/
inductive Message where
  | text (s : String)
  | ofError (err : Error)
deriving DecidableEq, Repr

/-! ## Collaborators -/

/-- The missing package `noderefutil`, taken as a parameter: the type `ProviderID`,
the parser `NewProviderID` and the comparison `Equals`. -/
structure Noderefutil where
  ProviderID : Type
  NewProviderID : String → Except ExternalError ProviderID
  Equals : ProviderID → ProviderID → Bool

/-- One `List` request: the context and the `client.Continue` cursor it carries. -/
structure ListRequest where
  ctx : Context
  Continue : String
deriving DecidableEq, Repr

/-- A `client.Reader`. The answer to a `List` request may depend on every request made
before it (first argument, oldest first), so the remote inventory may change or fail
between pages. On success the answer replaces the caller's `NodeList`. -/
structure Reader where
  ListNodes : List ListRequest → ListRequest → Except ListError NodeList

/-- The cluster tracker `r.Tracker`. -/
structure Tracker where
  GetClient : Context → ObjectKey → Except ExternalError Reader

/-- The fields of `MachineReconciler` used by the code (the recorder is the call list). -/
structure MachineReconciler where
  Tracker : Tracker

/-- The constant `apicorev1.EventTypeNormal`. -/
def EventTypeNormal : String := "Normal"

/-- The constant `apicorev1.EventTypeWarning`. -/
def EventTypeWarning : String := "Warning"

/-- A call made to a collaborator. -/
inductive Call where
  | GetClient (ctx : Context) (key : ObjectKey)
  | ListNodes (req : ListRequest)
  | Event (object : Machine) (eventtype : String) (reason : String) (message : Message)
deriving DecidableEq, Repr

/-! ## getNodeReference -/

/-- The reference built at lines 102-107 from the matching Node. -/
def referenceOf (node : Node) : ObjectReference :=
  { Kind := node.Kind, APIVersion := node.APIVersion, Name := node.Name, UID := node.UID }

/-- The inner loop `for _, node := range nodeList.Items` (lines 94-109): `some ref` when
it returns a reference, `none` when it runs to the end of the page. -/
def rangeItems (lib : Noderefutil) (providerID : lib.ProviderID) :
    List Node → Option ObjectReference
  | [] => none
  | node :: rest =>
    match lib.NewProviderID node.Spec.ProviderID with
    | .error _ => rangeItems lib providerID rest
    | .ok nodeProviderID =>
      if lib.Equals providerID nodeProviderID then some (referenceOf node)
      else rangeItems lib providerID rest

/-- The outer loop `for { ... }` (lines 89-114), started with the requests already made
and the current `nodeList`. Returns the result of `getNodeReference` and all requests
made, or `none` when the fuel is used up. -/
def getNodeReferenceLoop (lib : Noderefutil) (c : Reader) (providerID : lib.ProviderID) :
    Nat → List ListRequest → NodeList → Option (Except Error ObjectReference × List ListRequest)
  | 0, _, _ => none
  | fuel + 1, made, nodeList =>
    let req : ListRequest := { ctx := Context.TODO, Continue := nodeList.Continue }
    match c.ListNodes made req with
    | .error err => some (.error err.toError, made ++ [req])
    | .ok nodeList =>
      match rangeItems lib providerID nodeList.Items with
      | some ref => some (.ok ref, made ++ [req])
      | none =>
        if nodeList.Continue = "" then some (.error Error.ErrNodeNotFound, made ++ [req])
        else getNodeReferenceLoop lib c providerID fuel (made ++ [req]) nodeList

/-- The function `getNodeReference`: starts the loop with `nodeList := NodeList{}`. -/
def getNodeReference (lib : Noderefutil) (c : Reader) (providerID : lib.ProviderID)
    (fuel : Nat) : Option (Except Error ObjectReference × List ListRequest) :=
  getNodeReferenceLoop lib c providerID fuel [] {}

/-! ## reconcileNodeRef -/

/-- What one invocation of `reconcileNodeRef` leaves behind: the returned error
(`none` is `nil`), the Machine afterwards and the calls made, in order. -/
structure Outcome where
  err : Option Error
  machine : Machine
  calls : List Call
deriving DecidableEq, Repr

/-- The format string of the requeue error (line 71). -/
def noMatchFormat : String :=
  "cannot assign NodeRef to Machine %q in namespace %q, no matching Node"

/-- The function `reconcileNodeRef`. -/
def reconcileNodeRef (lib : Noderefutil) (r : MachineReconciler) (fuel : Nat)
    (ctx : Context) (cluster : Cluster) (machine : Machine) : Option Outcome :=
  if !Time.IsZero machine.DeletionTimestamp then
    some { err := none, machine := machine, calls := [] }
  else if machine.Status.NodeRef ≠ none then
    some { err := none, machine := machine, calls := [] }
  else
    match machine.Spec.ProviderID with
    | none => some { err := none, machine := machine, calls := [] }
    | some id =>
      if id = "" then some { err := none, machine := machine, calls := [] }
      else
        match lib.NewProviderID id with
        | .error err =>
          some { err := some (Error.external err), machine := machine, calls := [] }
        | .ok providerID =>
          let key := ObjectKeyOf cluster
          match r.Tracker.GetClient ctx key with
          | .error err =>
            some { err := some (Error.external err), machine := machine,
                   calls := [Call.GetClient ctx key] }
          | .ok remoteClient =>
            match getNodeReference lib remoteClient providerID fuel with
            | none => none
            | some (.error err, made) =>
              if err = Error.ErrNodeNotFound then
                some { err := some (Error.Wrapf (Error.RequeueAfterError (20 * Second))
                                      noMatchFormat [machine.Name, machine.Namespace]),
                       machine := machine,
                       calls := Call.GetClient ctx key :: made.map Call.ListNodes }
              else
                some { err := some err, machine := machine,
                       calls := Call.GetClient ctx key :: made.map Call.ListNodes ++
                         [Call.Event machine EventTypeWarning "FailedSetNodeRef"
                           (Message.ofError err)] }
            | some (.ok nodeRef, made) =>
              let bound : Machine :=
                { machine with Status := { machine.Status with NodeRef := some nodeRef } }
              some { err := none, machine := bound,
                     calls := Call.GetClient ctx key :: made.map Call.ListNodes ++
                       [Call.Event bound EventTypeNormal "SuccessfulSetNodeRef"
                         (Message.text nodeRef.Name)] }

/-! ## Vocabulary of the statements -/

/-- Whether the loop body accepts a Node for the target: its ProviderID parses and
`Equals` holds. -/
def nodeMatches (lib : Noderefutil) (providerID : lib.ProviderID) (node : Node) : Bool :=
  match lib.NewProviderID node.Spec.ProviderID with
  | .error _ => false
  | .ok nodeProviderID => lib.Equals providerID nodeProviderID

/-- Whether the ProviderID of a Node parses. -/
def nodeParses (lib : Noderefutil) (node : Node) : Bool :=
  match lib.NewProviderID node.Spec.ProviderID with
  | .error _ => false
  | .ok _ => true

/-- The fetch number `n` (counted from 0) of a traversal that starts after the requests
`made` with `nodeList` in hand and threads cursors as the loop does, whatever the pages
contain: the answer of the reader and the requests made up to and including this one.
`none` when the traversal has ended before (an earlier fetch failed or returned an
empty cursor). -/
def Reader.fetchFrom (c : Reader) :
    Nat → List ListRequest → NodeList → Option (Except ListError NodeList × List ListRequest)
  | 0, made, nodeList =>
    let req : ListRequest := { ctx := Context.TODO, Continue := nodeList.Continue }
    some (c.ListNodes made req, made ++ [req])
  | n + 1, made, nodeList =>
    let req : ListRequest := { ctx := Context.TODO, Continue := nodeList.Continue }
    match c.ListNodes made req with
    | .error _ => none
    | .ok next => if next.Continue = "" then none else c.fetchFrom n (made ++ [req]) next

/-- The fetch number `n` of a traversal from the start (empty cursor, no request made). -/
def Reader.fetch (c : Reader) (n : Nat) :
    Option (Except ListError NodeList × List ListRequest) :=
  c.fetchFrom n [] {}

/-- Page `n` of the inventory served by the reader: fetch `n` succeeded with this page. -/
def Reader.page (c : Reader) (n : Nat) : Option NodeList :=
  match c.fetch n with
  | some (.ok nodeList, _) => some nodeList
  | _ => none

/-- The reader with every Node whose ProviderID fails to parse removed from each page. -/
def Reader.dropUnparsable (lib : Noderefutil) (c : Reader) : Reader where
  ListNodes made req :=
    match c.ListNodes made req with
    | .error err => .error err
    | .ok nodeList => .ok { nodeList with Items := nodeList.Items.filter (nodeParses lib) }

/-- The events among the calls, as (type, reason, message), in order. -/
def eventsOf : List Call → List (String × String × Message)
  | [] => []
  | Call.Event _ eventtype reason message :: rest => (eventtype, reason, message) :: eventsOf rest
  | _ :: rest => eventsOf rest

/-- The `List` requests among the calls, in order. -/
def listRequestsOf : List Call → List ListRequest
  | [] => []
  | Call.ListNodes req :: rest => req :: listRequestsOf rest
  | _ :: rest => listRequestsOf rest

/-- The `GetClient` calls among the calls, in order. -/
def getClientCallsOf : List Call → List (Context × ObjectKey)
  | [] => []
  | Call.GetClient ctx key :: rest => (ctx, key) :: getClientCallsOf rest
  | _ :: rest => getClientCallsOf rest

/-! ## A provider identity parser following the specification -/

/-- Modelled from the spec: the package `noderefutil` (type `ProviderID`) is not among
the sources. The canonical form is a (scheme, resourceID) pair. -/
structure SpecProviderID where
  scheme : String
  resourceID : String
deriving DecidableEq, Repr

/-- Splits a list of characters on its first `://`; `none` when there is no separator. -/
def splitFirstSeparator : List Char → Option (List Char × List Char)
  | ':' :: '/' :: '/' :: rest => some ([], rest)
  | [] => none
  | c :: rest => (splitFirstSeparator rest).map (fun p => (c :: p.1, p.2))

/-- The error `InvalidIdentity` of the specification. -/
def InvalidIdentity : ExternalError := { text := "InvalidIdentity" }

/-- Modelled from the spec: `noderefutil.NewProviderID` is not among the sources. The raw
string is split on its first `://`; parsing fails when the string is empty, has no
separator, or leaves an empty scheme or an empty resource component. -/
def specNewProviderID (raw : String) : Except ExternalError SpecProviderID :=
  if raw = "" then .error InvalidIdentity
  else
    match splitFirstSeparator raw.data with
    | none => .error InvalidIdentity
    | some (scheme, resourceID) =>
      if scheme = [] ∨ resourceID = [] then .error InvalidIdentity
      else .ok { scheme := String.mk scheme, resourceID := String.mk resourceID }

/-- Modelled from the spec: `(*ProviderID).Equals` is not among the sources. Two
identities are equal when both components match exactly. -/
def specEquals (a b : SpecProviderID) : Bool :=
  a.scheme == b.scheme && a.resourceID == b.resourceID

/-- The package `noderefutil` as the specification describes it. -/
def specNoderefutil : Noderefutil where
  ProviderID := SpecProviderID
  NewProviderID := specNewProviderID
  Equals := specEquals

/-- The error of fetch number `n` of the traversal, when that fetch is made and fails. -/
def Reader.fetchError (c : Reader) (n : Nat) : Option ListError :=
  match c.fetch n with
  | some (.error err, _) => some err
  | _ => none

/-- What the loop returns at the page it stops on: the fetch error, the reference of
the first matching Node, or `ErrNodeNotFound`. -/
def loopResult (lib : Noderefutil) (providerID : lib.ProviderID) :
    Except ListError NodeList → Except Error ObjectReference
  | .error err => .error err.toError
  | .ok nodeList =>
    match rangeItems lib providerID nodeList.Items with
    | some ref => .ok ref
    | none => .error Error.ErrNodeNotFound

/-- Whether the loop leaves at this answer: the fetch failed, a Node matched, or the
cursor of the page is empty. -/
def loopStops (lib : Noderefutil) (providerID : lib.ProviderID) :
    Except ListError NodeList → Bool
  | .error _ => true
  | .ok nodeList =>
    (rangeItems lib providerID nodeList.Items).isSome || nodeList.Continue == ""

/-! ## Concrete inputs used to exercise the statements -/

/-- A Node that does not match `docker://m1`. -/
def nodeM0 : Node :=
  { Kind := "Node", APIVersion := "v1", Name := "n0", UID := "u0", Spec := { ProviderID := "docker://m0" } }

/-- A Node whose ProviderID does not parse. -/
def nodeBad : Node :=
  { Kind := "Node", APIVersion := "v1", Name := "bad", UID := "ub", Spec := { ProviderID := "no-scheme-here" } }

/-- A Node with ProviderID `docker://m1`. -/
def nodeM1 : Node :=
  { Kind := "Node", APIVersion := "v1", Name := "n1", UID := "u1", Spec := { ProviderID := "docker://m1" } }

/-- A second Node with ProviderID `docker://m1`. -/
def nodeM1Again : Node :=
  { Kind := "Node", APIVersion := "v1", Name := "n2", UID := "u2", Spec := { ProviderID := "docker://m1" } }

/-- A two-page inventory: page 1 without a match, page 2 with an unparsable Node and then
two Nodes carrying `docker://m1`. -/
def readerTwoPages : Reader where
  ListNodes _ req :=
    if req.Continue = "" then .ok { Items := [nodeM0], Continue := "p2" }
    else if req.Continue = "p2" then .ok { Items := [nodeBad, nodeM1, nodeM1Again], Continue := "" }
    else .error (ListError.other { text := "unknown cursor" })

/-- A two-page inventory in which no Node matches `docker://m1`. -/
def readerNoMatch : Reader where
  ListNodes _ req :=
    if req.Continue = "" then .ok { Items := [nodeM0], Continue := "p2" }
    else if req.Continue = "p2" then .ok { Items := [nodeBad], Continue := "" }
    else .error (ListError.other { text := "unknown cursor" })

/-- A reader whose second page fetch fails. -/
def readerFailing : Reader where
  ListNodes _ req :=
    if req.Continue = "" then .ok { Items := [nodeM0], Continue := "p2" }
    else .error (ListError.other { text := "context deadline exceeded" })

/-- A reader whose second page fetch fails with the package variable `ErrNodeNotFound`. -/
def readerReturningSentinel : Reader where
  ListNodes _ req :=
    if req.Continue = "" then .ok { Items := [nodeM0], Continue := "p2" }
    else .error ListError.ErrNodeNotFound

/-- A reconciler whose tracker hands out the given reader. -/
def reconcilerWith (c : Reader) : MachineReconciler :=
  { Tracker := { GetClient := fun _ _ => .ok c } }

/-- A reconciler whose tracker cannot supply a reader. -/
def reconcilerUnavailable : MachineReconciler :=
  { Tracker := { GetClient := fun _ _ => .error { text := "connection refused" } } }

/-- A cluster. -/
def clusterC1 : Cluster := { Name := "c1", Namespace := "default" }

/-- A Machine declaring `docker://m1`, not deleting and not yet bound. -/
def machineM1 : Machine :=
  { Name := "m1", Namespace := "default", DeletionTimestamp := none,
    Spec := { ProviderID := some "docker://m1" }, Status := { NodeRef := none } }

/-- A Machine being deleted whose ProviderID does not parse. -/
def machineDeleting : Machine :=
  { Name := "m2", Namespace := "default", DeletionTimestamp := some { sec := 1590000000, nsec := 0 },
    Spec := { ProviderID := some "no-scheme-here" }, Status := { NodeRef := none } }

/-- A Machine whose ProviderID does not parse. -/
def machineMalformed : Machine :=
  { Name := "m3", Namespace := "default", DeletionTimestamp := none,
    Spec := { ProviderID := some "no-scheme-here" }, Status := { NodeRef := none } }

/-- The identity `docker://m1` in canonical form. -/
def dockerM1 : SpecProviderID := { scheme := "docker", resourceID := "m1" }

/-- A reader that honours the context of each request: a request made under a cancelled
context fails, any other request is answered from the two-page inventory. -/
def readerHonouringContext : Reader where
  ListNodes made req :=
    match req.ctx with
    | Context.request true => .error (ListError.other { text := "context canceled" })
    | _ => readerTwoPages.ListNodes made req

/-- A reader that answers every request with a page without a match for `docker://m1`
and a non-empty cursor. -/
def readerEndless : Reader where
  ListNodes _ _ := .ok { Items := [nodeM0], Continue := "more" }

/-- A reader that hands back the cursor `a` twice before the inventory ends. -/
def readerRepeatingCursor : Reader where
  ListNodes made _ :=
    if made.length < 2 then .ok { Items := [nodeM0], Continue := "a" }
    else .ok { Items := [nodeM0], Continue := "" }

/-- Modelled from the spec: the match test on two raw identity strings, `equals(parse(a),
parse(b))`, defined when both strings parse. -/
def specMatchRaw (a b : String) : Option Bool :=
  match specNewProviderID a, specNewProviderID b with
  | .ok pa, .ok pb => some (specEquals pa pb)
  | _, _ => none

/-! ## Lemmas on the inner loop -/

theorem rangeItems_eq_find (lib : Noderefutil) (providerID : lib.ProviderID)
    (items : List Node) :
    rangeItems lib providerID items
      = (items.find? (nodeMatches lib providerID)).map referenceOf := by
  induction items with
  | nil => rfl
  | cons node rest ih =>
    unfold rangeItems
    rw [List.find?_cons, ih]
    simp only [nodeMatches]
    cases lib.NewProviderID node.Spec.ProviderID with
    | error e => rfl
    | ok q =>
      simp only
      cases he : lib.Equals providerID q with
      | true => simp
      | false => simp

theorem rangeItems_eq_none_iff (lib : Noderefutil) (providerID : lib.ProviderID)
    (items : List Node) :
    rangeItems lib providerID items = none
      ↔ ∀ x ∈ items, nodeMatches lib providerID x = false := by
  rw [rangeItems_eq_find]
  simp

theorem rangeItems_eq_some_iff (lib : Noderefutil) (providerID : lib.ProviderID)
    (items : List Node) (ref : ObjectReference) :
    rangeItems lib providerID items = some ref
      ↔ ∃ pre node post, items = pre ++ node :: post
          ∧ (∀ x ∈ pre, nodeMatches lib providerID x = false)
          ∧ nodeMatches lib providerID node = true ∧ ref = referenceOf node := by
  rw [rangeItems_eq_find]
  constructor
  · intro h
    cases hf : items.find? (nodeMatches lib providerID) with
    | none => simp [hf] at h
    | some node =>
      rw [hf] at h
      simp only [Option.map_some', Option.some.injEq] at h
      obtain ⟨hm, pre, post, hitems, hpre⟩ := List.find?_eq_some.mp hf
      refine ⟨pre, node, post, hitems, ?_, hm, h.symm⟩
      intro x hx
      simpa using hpre x hx
  · rintro ⟨pre, node, post, hitems, hpre, hm, rfl⟩
    have : items.find? (nodeMatches lib providerID) = some node :=
      List.find?_eq_some.mpr ⟨hm, pre, post, hitems, fun a ha => by simp [hpre a ha]⟩
    simp [this]

theorem rangeItems_append_of_match (lib : Noderefutil) (providerID : lib.ProviderID)
    (pre post : List Node) (node : Node)
    (hpre : ∀ x ∈ pre, nodeMatches lib providerID x = false)
    (hm : nodeMatches lib providerID node = true) :
    rangeItems lib providerID (pre ++ node :: post) = some (referenceOf node) :=
  (rangeItems_eq_some_iff lib providerID _ _).mpr ⟨pre, node, post, rfl, hpre, hm, rfl⟩

/-! ## Lemmas on the outer loop -/

theorem fetchFrom_succ_of_ok (c : Reader) (n : Nat) (made : List ListRequest)
    (nodeList next : NodeList)
    (h : c.ListNodes made { ctx := Context.TODO, Continue := nodeList.Continue } = .ok next)
    (hc : next.Continue ≠ "") :
    c.fetchFrom (n + 1) made nodeList
      = c.fetchFrom n (made ++ [{ ctx := Context.TODO, Continue := nodeList.Continue }]) next := by
  simp [Reader.fetchFrom, h, hc]

theorem fetchFrom_succ_isSome (c : Reader) (n : Nat) (made : List ListRequest)
    (nodeList : NodeList) (x : Except ListError NodeList × List ListRequest)
    (h : c.fetchFrom (n + 1) made nodeList = some x) :
    ∃ next, c.ListNodes made { ctx := Context.TODO, Continue := nodeList.Continue } = .ok next
      ∧ next.Continue ≠ "" := by
  simp only [Reader.fetchFrom] at h
  cases hl : c.ListNodes made { ctx := Context.TODO, Continue := nodeList.Continue } with
  | error e => simp [hl] at h
  | ok next =>
    refine ⟨next, rfl, ?_⟩
    intro hc
    simp [hl, hc] at h

/-- The loop run with enough fuel, described through the fetches of the traversal: when
the fetches before number `n` return pages on which no Node matches, and the loop stops
at fetch `n`, the loop returns the result read off that fetch and has made exactly the
requests up to it. -/
theorem loop_of_fetch (lib : Noderefutil) (c : Reader) (providerID : lib.ProviderID) :
    ∀ (n : Nat) (made : List ListRequest) (nodeList : NodeList)
      (ans : Except ListError NodeList) (reqs : List ListRequest),
      (∀ k, k < n → ∃ nl rk, c.fetchFrom k made nodeList = some (.ok nl, rk)
          ∧ rangeItems lib providerID nl.Items = none) →
      c.fetchFrom n made nodeList = some (ans, reqs) →
      loopStops lib providerID ans = true →
      ∀ fuel, n < fuel →
        getNodeReferenceLoop lib c providerID fuel made nodeList
          = some (loopResult lib providerID ans, reqs) := by
  intro n
  induction n with
  | zero =>
    intro made nodeList ans reqs _ hfetch hstop fuel hfuel
    obtain ⟨fuel, rfl⟩ : ∃ f, fuel = f + 1 := ⟨fuel - 1, by omega⟩
    simp only [Reader.fetchFrom, Option.some.injEq, Prod.mk.injEq] at hfetch
    obtain ⟨hans, hreqs⟩ := hfetch
    unfold getNodeReferenceLoop
    simp only
    rw [hans, hreqs]
    cases ans with
    | error e => rfl
    | ok nl =>
      simp only [loopResult]
      cases hr : rangeItems lib providerID nl.Items with
      | some ref => rfl
      | none =>
        have hc : nl.Continue = "" := by simpa [loopStops, hr] using hstop
        simp [hc]
  | succ n ih =>
    intro made nodeList ans reqs hbefore hfetch hstop fuel hfuel
    obtain ⟨fuel, rfl⟩ : ∃ f, fuel = f + 1 := ⟨fuel - 1, by omega⟩
    obtain ⟨next, hnext, hcont⟩ := fetchFrom_succ_isSome c n made nodeList _ hfetch
    obtain ⟨nl0, r0, h0, hnone0⟩ := hbefore 0 (by omega)
    simp only [Reader.fetchFrom, Option.some.injEq, Prod.mk.injEq] at h0
    rw [hnext] at h0
    have hnl0 : next = nl0 := by
      have := h0.1
      injection this
    subst hnl0
    unfold getNodeReferenceLoop
    simp only
    rw [hnext]
    simp only [hnone0, hcont, if_false]
    refine ih _ next ans reqs ?_ ?_ hstop fuel (by omega)
    · intro k hk
      have := hbefore (k + 1) (by omega)
      rwa [fetchFrom_succ_of_ok c k made nodeList next hnext hcont] at this
    · rwa [fetchFrom_succ_of_ok c n made nodeList next hnext hcont] at hfetch

/-- Every result of the loop comes from a fetch of the traversal at which the loop
stops, all earlier fetches having returned pages without a match. -/
theorem fetch_of_loop (lib : Noderefutil) (c : Reader) (providerID : lib.ProviderID) :
    ∀ (fuel : Nat) (made : List ListRequest) (nodeList : NodeList)
      (res : Except Error ObjectReference) (reqs : List ListRequest),
      getNodeReferenceLoop lib c providerID fuel made nodeList = some (res, reqs) →
      ∃ n ans, n < fuel
        ∧ (∀ k, k < n → ∃ nl rk, c.fetchFrom k made nodeList = some (.ok nl, rk)
              ∧ rangeItems lib providerID nl.Items = none)
        ∧ c.fetchFrom n made nodeList = some (ans, reqs)
        ∧ loopStops lib providerID ans = true
        ∧ res = loopResult lib providerID ans := by
  intro fuel
  induction fuel with
  | zero =>
    intro made nodeList res reqs h
    simp [getNodeReferenceLoop] at h
  | succ fuel ih =>
    intro made nodeList res reqs h
    unfold getNodeReferenceLoop at h
    simp only at h
    cases hl : c.ListNodes made { ctx := Context.TODO, Continue := nodeList.Continue } with
    | error e =>
      rw [hl] at h
      simp only [Option.some.injEq, Prod.mk.injEq] at h
      refine ⟨0, .error e, by omega, by intro k hk; omega, ?_, rfl, h.1.symm⟩
      simp [Reader.fetchFrom, hl, h.2]
    | ok next =>
      rw [hl] at h
      simp only at h
      cases hr : rangeItems lib providerID next.Items with
      | some ref =>
        rw [hr] at h
        simp only [Option.some.injEq, Prod.mk.injEq] at h
        refine ⟨0, .ok next, by omega, by intro k hk; omega, ?_, ?_, ?_⟩
        · simp [Reader.fetchFrom, hl, h.2]
        · simp [loopStops, hr]
        · simp [loopResult, hr, h.1.symm]
      | none =>
        rw [hr] at h
        simp only at h
        by_cases hc : next.Continue = ""
        · simp only [hc, if_true, Option.some.injEq, Prod.mk.injEq] at h
          refine ⟨0, .ok next, by omega, by intro k hk; omega, ?_, ?_, ?_⟩
          · simp [Reader.fetchFrom, hl, h.2]
          · simp [loopStops, hc]
          · simp [loopResult, hr, h.1.symm]
        · simp only [hc, if_false] at h
          obtain ⟨n, ans, hn, hbefore, hfetch, hstop, hres⟩ := ih _ next res reqs h
          refine ⟨n + 1, ans, by omega, ?_, ?_, hstop, hres⟩
          · intro k hk
            cases k with
            | zero =>
              exact ⟨next, made ++ [{ ctx := Context.TODO, Continue := nodeList.Continue }],
                by simp [Reader.fetchFrom, hl], hr⟩
            | succ k =>
              rw [fetchFrom_succ_of_ok c k made nodeList next hl hc]
              exact hbefore k (by omega)
          · rw [fetchFrom_succ_of_ok c n made nodeList next hl hc]
            exact hfetch

/-! ## Lemmas linking pages, requests and outcomes -/

theorem page_eq_some_iff (c : Reader) (n : Nat) (nodeList : NodeList) :
    c.page n = some nodeList ↔ ∃ reqs, c.fetchFrom n [] {} = some (.ok nodeList, reqs) := by
  unfold Reader.page Reader.fetch
  cases h : c.fetchFrom n [] {} with
  | none => simp
  | some x =>
    obtain ⟨ans, reqs⟩ := x
    cases ans with
    | error e => simp
    | ok nl => simp

theorem fetchError_eq_some_iff (c : Reader) (n : Nat) (err : ListError) :
    c.fetchError n = some err ↔ ∃ reqs, c.fetchFrom n [] {} = some (.error err, reqs) := by
  unfold Reader.fetchError Reader.fetch
  cases h : c.fetchFrom n [] {} with
  | none => simp
  | some x =>
    obtain ⟨ans, reqs⟩ := x
    cases ans with
    | error e => simp
    | ok nl => simp

theorem fetchFrom_length (c : Reader) :
    ∀ (n : Nat) (made : List ListRequest) (nodeList : NodeList)
      (ans : Except ListError NodeList) (reqs : List ListRequest),
      c.fetchFrom n made nodeList = some (ans, reqs) → reqs.length = made.length + n + 1 := by
  intro n
  induction n with
  | zero =>
    intro made nodeList ans reqs h
    simp only [Reader.fetchFrom, Option.some.injEq, Prod.mk.injEq] at h
    rw [← h.2]
    simp
  | succ n ih =>
    intro made nodeList ans reqs h
    obtain ⟨next, hnext, hcont⟩ := fetchFrom_succ_isSome c n made nodeList _ h
    rw [fetchFrom_succ_of_ok c n made nodeList next hnext hcont] at h
    have := ih _ _ _ _ h
    simp at this
    omega

theorem pagesBefore_to_fetch (lib : Noderefutil) (c : Reader) (providerID : lib.ProviderID)
    (n : Nat)
    (h : ∀ k, k < n → ∃ nl, c.page k = some nl
        ∧ ∀ x ∈ nl.Items, nodeMatches lib providerID x = false) :
    ∀ k, k < n → ∃ nl rk, c.fetchFrom k [] {} = some (.ok nl, rk)
        ∧ rangeItems lib providerID nl.Items = none := by
  intro k hk
  obtain ⟨nl, hp, hno⟩ := h k hk
  obtain ⟨rk, hf⟩ := (page_eq_some_iff c k nl).mp hp
  exact ⟨nl, rk, hf, (rangeItems_eq_none_iff lib providerID nl.Items).mpr hno⟩

theorem fetch_to_pagesBefore (lib : Noderefutil) (c : Reader) (providerID : lib.ProviderID)
    (n : Nat)
    (h : ∀ k, k < n → ∃ nl rk, c.fetchFrom k [] {} = some (.ok nl, rk)
        ∧ rangeItems lib providerID nl.Items = none) :
    ∀ k, k < n → ∃ nl, c.page k = some nl
        ∧ ∀ x ∈ nl.Items, nodeMatches lib providerID x = false := by
  intro k hk
  obtain ⟨nl, rk, hf, hno⟩ := h k hk
  exact ⟨nl, (page_eq_some_iff c k nl).mpr ⟨rk, hf⟩,
    (rangeItems_eq_none_iff lib providerID nl.Items).mp hno⟩

theorem eventsOf_listCalls (made : List ListRequest) (rest : List Call) :
    eventsOf (made.map Call.ListNodes ++ rest) = eventsOf rest := by
  induction made with
  | nil => rfl
  | cons a t ih => simpa [eventsOf] using ih

theorem listRequestsOf_listCalls (made : List ListRequest) (rest : List Call) :
    listRequestsOf (made.map Call.ListNodes ++ rest) = made ++ listRequestsOf rest := by
  induction made with
  | nil => rfl
  | cons a t ih => simpa [listRequestsOf] using ih

/-- Past the guards, with a parsed identity and a reader in hand, the outcome is read off
the result of `getNodeReference`. -/
theorem reconcileNodeRef_past_guards (lib : Noderefutil) (r : MachineReconciler)
    (fuel : Nat) (ctx : Context) (cluster : Cluster) (machine : Machine) (id : String)
    (providerID : lib.ProviderID) (c : Reader)
    (hdel : Time.IsZero machine.DeletionTimestamp = true)
    (href : machine.Status.NodeRef = none)
    (hid : machine.Spec.ProviderID = some id) (hne : id ≠ "")
    (hparse : lib.NewProviderID id = .ok providerID)
    (hclient : r.Tracker.GetClient ctx (ObjectKeyOf cluster) = .ok c) :
    reconcileNodeRef lib r fuel ctx cluster machine =
      match getNodeReference lib c providerID fuel with
      | none => none
      | some (.error err, made) =>
        if err = Error.ErrNodeNotFound then
          some { err := some (Error.Wrapf (Error.RequeueAfterError (20 * Second))
                                noMatchFormat [machine.Name, machine.Namespace]),
                 machine := machine,
                 calls := Call.GetClient ctx (ObjectKeyOf cluster) :: made.map Call.ListNodes }
        else
          some { err := some err, machine := machine,
                 calls := Call.GetClient ctx (ObjectKeyOf cluster) :: made.map Call.ListNodes ++
                   [Call.Event machine EventTypeWarning "FailedSetNodeRef"
                     (Message.ofError err)] }
      | some (.ok nodeRef, made) =>
        some { err := none,
               machine := { machine with Status := { machine.Status with NodeRef := some nodeRef } },
               calls := Call.GetClient ctx (ObjectKeyOf cluster) :: made.map Call.ListNodes ++
                 [Call.Event
                   { machine with Status := { machine.Status with NodeRef := some nodeRef } }
                   EventTypeNormal "SuccessfulSetNodeRef" (Message.text nodeRef.Name)] } := by
  unfold reconcileNodeRef
  simp only [hdel, href, hid, hne, hparse, hclient]
  simp

theorem rangeItems_filter_parses (lib : Noderefutil) (providerID : lib.ProviderID)
    (items : List Node) :
    rangeItems lib providerID (items.filter (nodeParses lib)) = rangeItems lib providerID items := by
  induction items with
  | nil => rfl
  | cons node rest ih =>
    cases hp : lib.NewProviderID node.Spec.ProviderID with
    | error e =>
      have hparse : nodeParses lib node = false := by simp [nodeParses, hp]
      rw [List.filter_cons_of_neg (by simp [hparse])]
      rw [ih]
      conv_rhs => unfold rangeItems
      simp [hp]
    | ok q =>
      have hparse : nodeParses lib node = true := by simp [nodeParses, hp]
      rw [List.filter_cons_of_pos hparse]
      unfold rangeItems
      simp only [hp]
      rw [ih]

theorem loop_dropUnparsable (lib : Noderefutil) (c : Reader) (providerID : lib.ProviderID) :
    ∀ (fuel : Nat) (made : List ListRequest) (nodeList other : NodeList),
      other.Continue = nodeList.Continue →
      getNodeReferenceLoop lib (c.dropUnparsable lib) providerID fuel made other
        = getNodeReferenceLoop lib c providerID fuel made nodeList := by
  intro fuel
  induction fuel with
  | zero => intro made nodeList other _; rfl
  | succ fuel ih =>
    intro made nodeList other hc
    unfold getNodeReferenceLoop
    simp only [Reader.dropUnparsable, hc]
    cases hl : c.ListNodes made { ctx := Context.TODO, Continue := nodeList.Continue } with
    | error e => rfl
    | ok next =>
      simp only [rangeItems_filter_parses]
      cases hr : rangeItems lib providerID next.Items with
      | some ref => rfl
      | none =>
        simp only
        by_cases hn : next.Continue = ""
        · simp [hn]
        · simp only [hn, if_false]
          exact ih _ next _ rfl

/-! ## Match found -/

/-- C1 (match found). For a Machine that is not deleting, has no NodeRef and declares a
non-empty ProviderID that parses, and a reader whose pages before page `n` are fetched
without error and hold no matching Node while page `n` is fetched without error and holds
`node` as its first matching Node: with fuel for `n + 1` fetches, `reconcileNodeRef`
returns nil, sets `Status.NodeRef` to the Kind, APIVersion, Name and UID of `node` with
all other reference fields empty, and records exactly one event, of type Normal. -/
theorem reconcileNodeRef_match_found (lib : Noderefutil) (r : MachineReconciler)
    (ctx : Context) (cluster : Cluster) (machine : Machine) (id : String)
    (providerID : lib.ProviderID) (c : Reader) (n : Nat) (nodeList : NodeList)
    (pre post : List Node) (node : Node)
    (hdel : Time.IsZero machine.DeletionTimestamp = true)
    (href : machine.Status.NodeRef = none)
    (hid : machine.Spec.ProviderID = some id) (hne : id ≠ "")
    (hparse : lib.NewProviderID id = .ok providerID)
    (hclient : r.Tracker.GetClient ctx (ObjectKeyOf cluster) = .ok c)
    (hbefore : ∀ k, k < n → ∃ nl, c.page k = some nl
        ∧ ∀ x ∈ nl.Items, nodeMatches lib providerID x = false)
    (hpage : c.page n = some nodeList)
    (hitems : nodeList.Items = pre ++ node :: post)
    (hpre : ∀ x ∈ pre, nodeMatches lib providerID x = false)
    (hnode : nodeMatches lib providerID node = true)
    (fuel : Nat) (hfuel : n < fuel) :
    ∃ out, reconcileNodeRef lib r fuel ctx cluster machine = some out
      ∧ out.err = none
      ∧ out.machine.Status.NodeRef
          = some { Kind := node.Kind, Namespace := "", Name := node.Name, UID := node.UID,
                   APIVersion := node.APIVersion, ResourceVersion := "", FieldPath := "" }
      ∧ eventsOf out.calls
          = [(EventTypeNormal, "SuccessfulSetNodeRef", Message.text node.Name)] := by
  obtain ⟨reqs, hfetch⟩ := (page_eq_some_iff c n nodeList).mp hpage
  have hrange : rangeItems lib providerID nodeList.Items = some (referenceOf node) := by
    rw [hitems]
    exact rangeItems_append_of_match lib providerID pre post node hpre hnode
  have hloop := loop_of_fetch lib c providerID n [] {} (.ok nodeList) reqs
    (pagesBefore_to_fetch lib c providerID n hbefore) hfetch
    (by simp [loopStops, hrange]) fuel hfuel
  rw [reconcileNodeRef_past_guards lib r fuel ctx cluster machine id providerID c
    hdel href hid hne hparse hclient]
  unfold getNodeReference
  rw [hloop]
  simp only [loopResult, hrange]
  refine ⟨_, rfl, rfl, rfl, ?_⟩
  simp only [eventsOf]
  exact (eventsOf_listCalls reqs _).trans rfl

/-- C1 exercised: Machine `docker://m1` against the two-page inventory. -/
theorem reconcileNodeRef_match_found_witness :
    ∃ out, reconcileNodeRef specNoderefutil (reconcilerWith readerTwoPages) 2
        (Context.request false) clusterC1 machineM1 = some out
      ∧ out.err = none
      ∧ out.machine.Status.NodeRef
          = some { Kind := "Node", Namespace := "", Name := "n1", UID := "u1",
                   APIVersion := "v1", ResourceVersion := "", FieldPath := "" }
      ∧ eventsOf out.calls = [(EventTypeNormal, "SuccessfulSetNodeRef", Message.text "n1")] :=
  reconcileNodeRef_match_found specNoderefutil (reconcilerWith readerTwoPages)
    (Context.request false) clusterC1 machineM1 "docker://m1" dockerM1 readerTwoPages 1
    { Items := [nodeBad, nodeM1, nodeM1Again], Continue := "" } [nodeBad] [nodeM1Again] nodeM1
    rfl rfl rfl (by decide) rfl rfl
    (by
      intro k hk
      obtain rfl : k = 0 := by omega
      refine ⟨{ Items := [nodeM0], Continue := "p2" }, rfl, ?_⟩
      intro x hx
      obtain rfl : x = nodeM0 := by simpa using hx
      rfl)
    rfl rfl
    (by
      intro x hx
      obtain rfl : x = nodeBad := by simpa using hx
      rfl)
    rfl 2 (by decide)

/-! ## Match absent -/

/-- C2 (match absent). For a Machine that passes the guards (not deleting, no NodeRef,
non-empty ProviderID that parses, reader obtained) and a finite inventory whose pages
`0..n` are all fetched without error, page `n` carrying the empty cursor, with no
matching Node on any page: with fuel for `n + 1` fetches, `reconcileNodeRef` returns the
error wrapping `RequeueAfterError` with `RequeueAfter` of 20 seconds, records no event, and
leaves `Status.NodeRef` nil. -/
theorem reconcileNodeRef_match_absent (lib : Noderefutil) (r : MachineReconciler)
    (ctx : Context) (cluster : Cluster) (machine : Machine) (id : String)
    (providerID : lib.ProviderID) (c : Reader) (n : Nat) (last : NodeList)
    (hdel : Time.IsZero machine.DeletionTimestamp = true)
    (href : machine.Status.NodeRef = none)
    (hid : machine.Spec.ProviderID = some id) (hne : id ≠ "")
    (hparse : lib.NewProviderID id = .ok providerID)
    (hclient : r.Tracker.GetClient ctx (ObjectKeyOf cluster) = .ok c)
    (hbefore : ∀ k, k < n → ∃ nl, c.page k = some nl
        ∧ ∀ x ∈ nl.Items, nodeMatches lib providerID x = false)
    (hlast : c.page n = some last)
    (hnone : ∀ x ∈ last.Items, nodeMatches lib providerID x = false)
    (hend : last.Continue = "")
    (fuel : Nat) (hfuel : n < fuel) :
    ∃ out, reconcileNodeRef lib r fuel ctx cluster machine = some out
      ∧ out.err = some (Error.Wrapf (Error.RequeueAfterError (20 * Second)) noMatchFormat
                          [machine.Name, machine.Namespace])
      ∧ eventsOf out.calls = []
      ∧ out.machine.Status.NodeRef = none := by
  obtain ⟨reqs, hfetch⟩ := (page_eq_some_iff c n last).mp hlast
  have hrange : rangeItems lib providerID last.Items = none :=
    (rangeItems_eq_none_iff lib providerID last.Items).mpr hnone
  have hloop := loop_of_fetch lib c providerID n [] {} (.ok last) reqs
    (pagesBefore_to_fetch lib c providerID n hbefore) hfetch
    (by simp [loopStops, hend]) fuel hfuel
  rw [reconcileNodeRef_past_guards lib r fuel ctx cluster machine id providerID c
    hdel href hid hne hparse hclient]
  unfold getNodeReference
  rw [hloop]
  simp only [loopResult, hrange, if_true]
  refine ⟨_, rfl, rfl, ?_, href⟩
  simp only [eventsOf]
  have := eventsOf_listCalls reqs []
  simpa using this

/-- C2 exercised: Machine `docker://m1` against a two-page inventory without a match. -/
theorem reconcileNodeRef_match_absent_witness :
    ∃ out, reconcileNodeRef specNoderefutil (reconcilerWith readerNoMatch) 2
        (Context.request false) clusterC1 machineM1 = some out
      ∧ out.err = some (Error.Wrapf (Error.RequeueAfterError (20 * Second)) noMatchFormat
                          ["m1", "default"])
      ∧ eventsOf out.calls = []
      ∧ out.machine.Status.NodeRef = none :=
  reconcileNodeRef_match_absent specNoderefutil (reconcilerWith readerNoMatch)
    (Context.request false) clusterC1 machineM1 "docker://m1" dockerM1 readerNoMatch 1
    { Items := [nodeBad], Continue := "" }
    rfl rfl rfl (by decide) rfl rfl
    (by
      intro k hk
      obtain rfl : k = 0 := by omega
      refine ⟨{ Items := [nodeM0], Continue := "p2" }, rfl, ?_⟩
      intro x hx
      obtain rfl : x = nodeM0 := by simpa using hx
      rfl)
    rfl
    (by
      intro x hx
      obtain rfl : x = nodeBad := by simpa using hx
      rfl)
    rfl 2 (by decide)

/-! ## Guards -/

/-- C3 (idempotence). For a Machine whose `Status.NodeRef` is set, whatever its
ProviderID and deletion timestamp, whatever the parser, the tracker, the readers and the
fuel: `reconcileNodeRef` returns nil, leaves the Machine (its NodeRef included) unchanged,
and makes no call at all: no `GetClient`, no `List`, no event. A second invocation right
after a successful match is such a case. -/
theorem reconcileNodeRef_already_bound (lib : Noderefutil) (r : MachineReconciler)
    (fuel : Nat) (ctx : Context) (cluster : Cluster) (machine : Machine)
    (href : machine.Status.NodeRef ≠ none) :
    reconcileNodeRef lib r fuel ctx cluster machine
      = some { err := none, machine := machine, calls := [] } := by
  unfold reconcileNodeRef
  split
  · rfl
  · simp [href]

/-- C3 exercised: the Machine left by a successful match, reconciled again with no fuel
against a reader that would fail. -/
theorem reconcileNodeRef_already_bound_witness :
    reconcileNodeRef specNoderefutil (reconcilerWith readerFailing) 0 (Context.request false)
        clusterC1
        { machineM1 with Status := { NodeRef := some (referenceOf nodeM1) } }
      = some { err := none,
               machine := { machineM1 with Status := { NodeRef := some (referenceOf nodeM1) } },
               calls := [] } :=
  reconcileNodeRef_already_bound specNoderefutil (reconcilerWith readerFailing) 0
    (Context.request false) clusterC1
    { machineM1 with Status := { NodeRef := some (referenceOf nodeM1) } } (by decide)

/-- C4 (no-op guards). For a Machine whose DeletionTimestamp is set (not zero), or whose
`Spec.ProviderID` is nil or the empty string: `reconcileNodeRef` returns nil, makes no call
(no `GetClient`, no `List`, no event) and leaves the Machine unchanged. The deletion guard
comes first, so a deleting Machine with a malformed ProviderID returns nil as well. -/
theorem reconcileNodeRef_noop_guards (lib : Noderefutil) (r : MachineReconciler)
    (fuel : Nat) (ctx : Context) (cluster : Cluster) (machine : Machine)
    (h : Time.IsZero machine.DeletionTimestamp = false
          ∨ machine.Spec.ProviderID = none ∨ machine.Spec.ProviderID = some "") :
    reconcileNodeRef lib r fuel ctx cluster machine
      = some { err := none, machine := machine, calls := [] } := by
  unfold reconcileNodeRef
  split
  · rfl
  · split
    · rfl
    · rename_i hdel href
      rcases h with h | h | h
      · simp [h] at hdel
      · simp [h]
      · simp [h]

/-- C4 exercised: a deleting Machine whose ProviderID fails to parse. -/
theorem reconcileNodeRef_noop_guards_witness :
    specNewProviderID "no-scheme-here" = .error InvalidIdentity
      ∧ reconcileNodeRef specNoderefutil (reconcilerWith readerTwoPages) 2
          (Context.request false) clusterC1 machineDeleting
        = some { err := none, machine := machineDeleting, calls := [] } :=
  ⟨rfl, reconcileNodeRef_noop_guards specNoderefutil (reconcilerWith readerTwoPages) 2
    (Context.request false) clusterC1 machineDeleting (Or.inl rfl)⟩

/-! ## Scan failure -/

/-- C5, as the code has it. For a Machine that passes the guards and a reader whose
fetches before number `n` return pages without a matching Node and whose fetch number `n`
fails with an error `e` other than the package variable `ErrNodeNotFound` (whatever the
cause: transport, deadline exceeded): with fuel for `n + 1` fetches, `reconcileNodeRef`
returns `e` itself, which is not the retry-after outcome, records exactly one event, of
type Warning, and leaves `Status.NodeRef` nil. -/
theorem reconcileNodeRef_scan_failure (lib : Noderefutil) (r : MachineReconciler)
    (ctx : Context) (cluster : Cluster) (machine : Machine) (id : String)
    (providerID : lib.ProviderID) (c : Reader) (n : Nat) (e : ListError)
    (hdel : Time.IsZero machine.DeletionTimestamp = true)
    (href : machine.Status.NodeRef = none)
    (hid : machine.Spec.ProviderID = some id) (hne : id ≠ "")
    (hparse : lib.NewProviderID id = .ok providerID)
    (hclient : r.Tracker.GetClient ctx (ObjectKeyOf cluster) = .ok c)
    (hbefore : ∀ k, k < n → ∃ nl, c.page k = some nl
        ∧ ∀ x ∈ nl.Items, nodeMatches lib providerID x = false)
    (hfail : c.fetchError n = some e)
    (hother : e ≠ ListError.ErrNodeNotFound)
    (fuel : Nat) (hfuel : n < fuel) :
    ∃ out, reconcileNodeRef lib r fuel ctx cluster machine = some out
      ∧ out.err = some e.toError
      ∧ (∀ d format args, out.err ≠ some (Error.Wrapf (Error.RequeueAfterError d) format args))
      ∧ eventsOf out.calls
          = [(EventTypeWarning, "FailedSetNodeRef", Message.ofError e.toError)]
      ∧ out.machine.Status.NodeRef = none := by
  obtain ⟨reqs, hfetch⟩ := (fetchError_eq_some_iff c n e).mp hfail
  have hloop := loop_of_fetch lib c providerID n [] {} (.error e) reqs
    (pagesBefore_to_fetch lib c providerID n hbefore) hfetch rfl fuel hfuel
  rw [reconcileNodeRef_past_guards lib r fuel ctx cluster machine id providerID c
    hdel href hid hne hparse hclient]
  unfold getNodeReference
  rw [hloop]
  cases e with
  | ErrNodeNotFound => exact absurd rfl hother
  | other x =>
    have hne' : Error.external x ≠ Error.ErrNodeNotFound := by intro h; cases h
    simp only [loopResult, ListError.toError, hne', if_false]
    refine ⟨_, rfl, rfl, ?_, ?_, href⟩
    · intro d format args h
      cases h
    · simp only [eventsOf]
      exact (eventsOf_listCalls reqs _).trans rfl

/-- C5 exercised: the second page fetch fails with a deadline error. -/
theorem reconcileNodeRef_scan_failure_witness :
    ∃ out, reconcileNodeRef specNoderefutil (reconcilerWith readerFailing) 2
        (Context.request false) clusterC1 machineM1 = some out
      ∧ out.err = some (Error.external { text := "context deadline exceeded" })
      ∧ (∀ d format args, out.err ≠ some (Error.Wrapf (Error.RequeueAfterError d) format args))
      ∧ eventsOf out.calls
          = [(EventTypeWarning, "FailedSetNodeRef",
              Message.ofError (Error.external { text := "context deadline exceeded" }))]
      ∧ out.machine.Status.NodeRef = none :=
  reconcileNodeRef_scan_failure specNoderefutil (reconcilerWith readerFailing)
    (Context.request false) clusterC1 machineM1 "docker://m1" dockerM1 readerFailing 1
    (ListError.other { text := "context deadline exceeded" })
    rfl rfl rfl (by decide) rfl rfl
    (by
      intro k hk
      obtain rfl : k = 0 := by omega
      refine ⟨{ Items := [nodeM0], Continue := "p2" }, rfl, ?_⟩
      intro x hx
      obtain rfl : x = nodeM0 := by simpa using hx
      rfl)
    rfl (by decide) 2 (by decide)

/-- C5 as stated fails: against a reader whose second page fetch fails with the package
variable `ErrNodeNotFound`, before any matching Node has been seen, `reconcileNodeRef`
returns the retry-after error of the no-match case and records no event. -/
theorem reconcileNodeRef_scan_failure_taken_for_no_match :
    readerReturningSentinel.fetchError 1 = some ListError.ErrNodeNotFound
      ∧ readerReturningSentinel.page 0 = some { Items := [nodeM0], Continue := "p2" }
      ∧ nodeMatches specNoderefutil dockerM1 nodeM0 = false
      ∧ ∃ out, reconcileNodeRef specNoderefutil (reconcilerWith readerReturningSentinel) 2
            (Context.request false) clusterC1 machineM1 = some out
          ∧ out.err = some (Error.Wrapf (Error.RequeueAfterError (20 * Second)) noMatchFormat
                              ["m1", "default"])
          ∧ eventsOf out.calls = [] :=
  ⟨rfl, rfl, rfl, _, rfl, rfl, rfl⟩

/-! ## The scan -/

/-- C6 (malformed entries tolerated). For every reader, target identity and fuel,
removing from every page the Nodes whose ProviderID fails to parse does not change what
`getNodeReference` returns (nor the requests it makes). In particular, when the first
page holds a Node with an unparsable ProviderID followed by a Node with a matching
ProviderID, the result is the reference of the matching Node and no error. -/
theorem getNodeReference_malformed_tolerated (lib : Noderefutil) (c : Reader)
    (providerID : lib.ProviderID) (fuel : Nat) :
    getNodeReference lib (c.dropUnparsable lib) providerID fuel
        = getNodeReference lib c providerID fuel
      ∧ ∀ (bad good : Node) (next : String),
          nodeParses lib bad = false → nodeMatches lib providerID good = true →
          c.ListNodes [] { ctx := Context.TODO, Continue := "" }
            = .ok { Items := [bad, good], Continue := next } →
          getNodeReference lib c providerID (fuel + 1)
            = some (.ok (referenceOf good), [{ ctx := Context.TODO, Continue := "" }]) := by
  refine ⟨loop_dropUnparsable lib c providerID fuel [] {} {} rfl, ?_⟩
  intro bad good next hbad hgood hlist
  have hpre : ∀ x ∈ [bad], nodeMatches lib providerID x = false := by
    intro x hx
    obtain rfl : x = bad := by simpa using hx
    unfold nodeParses at hbad
    unfold nodeMatches
    cases hp : lib.NewProviderID x.Spec.ProviderID with
    | error e => rfl
    | ok q => simp [hp] at hbad
  have hrange := rangeItems_append_of_match lib providerID [bad] [] good hpre hgood
  unfold getNodeReference getNodeReferenceLoop
  simp only
  have hlist' : c.ListNodes []
      { ctx := Context.TODO, Continue := ({} : NodeList).Continue }
      = .ok { Items := [bad, good], Continue := next } := hlist
  rw [hlist']
  simp only [List.nil_append]
  have hrange' : rangeItems lib providerID [bad, good] = some (referenceOf good) := hrange
  rw [hrange']

/-- C6 exercised: on the second page of the two-page inventory cut down to an unparsable
Node followed by a matching one. -/
theorem getNodeReference_malformed_tolerated_witness :
    getNodeReference specNoderefutil
        ({ ListNodes := fun _ _ => .ok { Items := [nodeBad, nodeM1], Continue := "" } } : Reader)
        dockerM1 1
      = some (.ok (referenceOf nodeM1), [{ ctx := Context.TODO, Continue := "" }]) :=
  (getNodeReference_malformed_tolerated specNoderefutil
    { ListNodes := fun _ _ => .ok { Items := [nodeBad, nodeM1], Continue := "" } }
    dockerM1 0).2 nodeBad nodeM1 "" rfl rfl rfl

/-- C7 (first encountered wins, with short-circuit). Whenever `getNodeReference` returns a
reference, there is a fetch number `n` of the traversal (pages in cursor order) such that
every earlier page was fetched without error and holds no matching Node, page `n` holds a
Node `node` that matches and is preceded on that page by no matching Node, the reference
is that of `node` whatever follows it on the page or on later pages, and the requests made
are exactly the `n + 1` requests up to and including fetch `n`. -/
theorem getNodeReference_first_match (lib : Noderefutil) (c : Reader)
    (providerID : lib.ProviderID) (fuel : Nat) (ref : ObjectReference)
    (reqs : List ListRequest)
    (h : getNodeReference lib c providerID fuel = some (.ok ref, reqs)) :
    ∃ n nodeList pre node post,
      c.fetch n = some (.ok nodeList, reqs)
      ∧ reqs.length = n + 1
      ∧ (∀ k, k < n → ∃ nl, c.page k = some nl
            ∧ ∀ x ∈ nl.Items, nodeMatches lib providerID x = false)
      ∧ nodeList.Items = pre ++ node :: post
      ∧ (∀ x ∈ pre, nodeMatches lib providerID x = false)
      ∧ nodeMatches lib providerID node = true
      ∧ ref = referenceOf node := by
  obtain ⟨n, ans, _, hbefore, hfetch, _, hres⟩ :=
    fetch_of_loop lib c providerID fuel [] {} (.ok ref) reqs h
  have hlen := fetchFrom_length c n [] {} ans reqs hfetch
  cases ans with
  | error e => simp [loopResult] at hres
  | ok nodeList =>
    simp only [loopResult] at hres
    cases hr : rangeItems lib providerID nodeList.Items with
    | none => simp [hr] at hres
    | some found =>
      rw [hr] at hres
      have hfound : ref = found := by injection hres
      subst hfound
      obtain ⟨pre, node, post, hitems, hpre, hnode, href⟩ :=
        (rangeItems_eq_some_iff lib providerID nodeList.Items ref).mp hr
      exact ⟨n, nodeList, pre, node, post, hfetch, by simpa using hlen,
        fetch_to_pagesBefore lib c providerID n hbefore, hitems, hpre, hnode, href⟩

/-- C7 exercised: the two-page inventory, whose second page holds two Nodes carrying the
target identity. -/
theorem getNodeReference_first_match_witness :
    getNodeReference specNoderefutil readerTwoPages dockerM1 5
        = some (.ok (referenceOf nodeM1),
            [{ ctx := Context.TODO, Continue := "" }, { ctx := Context.TODO, Continue := "p2" }])
      ∧ ∃ n nodeList pre node post,
        readerTwoPages.fetch n = some (.ok nodeList,
            [{ ctx := Context.TODO, Continue := "" }, { ctx := Context.TODO, Continue := "p2" }])
        ∧ [({ ctx := Context.TODO, Continue := "" } : ListRequest),
            { ctx := Context.TODO, Continue := "p2" }].length = n + 1
        ∧ (∀ k, k < n → ∃ nl, readerTwoPages.page k = some nl
              ∧ ∀ x ∈ nl.Items, nodeMatches specNoderefutil dockerM1 x = false)
        ∧ nodeList.Items = pre ++ node :: post
        ∧ (∀ x ∈ pre, nodeMatches specNoderefutil dockerM1 x = false)
        ∧ nodeMatches specNoderefutil dockerM1 node = true
        ∧ referenceOf nodeM1 = referenceOf node :=
  ⟨rfl, getNodeReference_first_match specNoderefutil readerTwoPages dockerM1 5
    (referenceOf nodeM1) _ rfl⟩

/-! ## Write set -/

/-- C8 (write set and monotonic binding). For every invocation of `reconcileNodeRef` and
every outcome it produces, the Machine afterwards is the Machine before with at most
`Status.NodeRef` changed (so `Spec.ProviderID` is as it was), and `Status.NodeRef` is
either unchanged or was nil and is now set: it is never cleared and never replaced. -/
theorem reconcileNodeRef_write_set (lib : Noderefutil) (r : MachineReconciler)
    (fuel : Nat) (ctx : Context) (cluster : Cluster) (machine : Machine) (out : Outcome)
    (h : reconcileNodeRef lib r fuel ctx cluster machine = some out) :
    out.machine
        = { machine with
              Status := { machine.Status with NodeRef := out.machine.Status.NodeRef } }
      ∧ out.machine.Spec.ProviderID = machine.Spec.ProviderID
      ∧ (out.machine.Status.NodeRef = machine.Status.NodeRef
          ∨ (machine.Status.NodeRef = none ∧ out.machine.Status.NodeRef ≠ none)) := by
  unfold reconcileNodeRef at h
  split at h
  · cases h; exact ⟨rfl, rfl, Or.inl rfl⟩
  · split at h
    · cases h; exact ⟨rfl, rfl, Or.inl rfl⟩
    · rename_i href
      have href' : machine.Status.NodeRef = none := by simpa using href
      split at h
      · cases h; exact ⟨rfl, rfl, Or.inl rfl⟩
      · split at h
        · cases h; exact ⟨rfl, rfl, Or.inl rfl⟩
        · split at h
          · cases h; exact ⟨rfl, rfl, Or.inl rfl⟩
          · simp only at h
            split at h
            · cases h; exact ⟨rfl, rfl, Or.inl rfl⟩
            · split at h
              · cases h
              · split at h
                · cases h; exact ⟨rfl, rfl, Or.inl rfl⟩
                · cases h; exact ⟨rfl, rfl, Or.inl rfl⟩
              · cases h
                exact ⟨rfl, rfl, Or.inr ⟨href', by simp⟩⟩

/-- C8 exercised: the run that binds Machine `docker://m1` to Node `n1`. -/
theorem reconcileNodeRef_write_set_witness :
    ({ machineM1 with Status := { NodeRef := some (referenceOf nodeM1) } } : Machine)
        = { machineM1 with
              Status := { machineM1.Status with NodeRef := some (referenceOf nodeM1) } }
      ∧ some "docker://m1" = machineM1.Spec.ProviderID
      ∧ (some (referenceOf nodeM1) = machineM1.Status.NodeRef
          ∨ (machineM1.Status.NodeRef = none
              ∧ (some (referenceOf nodeM1) : Option ObjectReference) ≠ none)) :=
  reconcileNodeRef_write_set specNoderefutil (reconcilerWith readerTwoPages) 2
    (Context.request false) clusterC1 machineM1
    { err := none,
      machine := { machineM1 with Status := { NodeRef := some (referenceOf nodeM1) } },
      calls := [Call.GetClient (Context.request false) (ObjectKeyOf clusterC1),
                Call.ListNodes { ctx := Context.TODO, Continue := "" },
                Call.ListNodes { ctx := Context.TODO, Continue := "p2" },
                Call.Event { machineM1 with Status := { NodeRef := some (referenceOf nodeM1) } }
                  EventTypeNormal "SuccessfulSetNodeRef" (Message.text "n1")] }
    rfl

/-! ## Hard failures before the scan -/

/-- C9 (malformed declared identity). For a Machine that is not deleting, has no NodeRef
and declares a non-empty ProviderID on which `NewProviderID` fails with `e`:
`reconcileNodeRef` returns `e`, which is neither nil nor the retry-after outcome, makes no
call (no `GetClient`, no `List`) and leaves the Machine, so its nil NodeRef, unchanged. -/
theorem reconcileNodeRef_malformed_identity (lib : Noderefutil) (r : MachineReconciler)
    (fuel : Nat) (ctx : Context) (cluster : Cluster) (machine : Machine) (id : String)
    (e : ExternalError)
    (hdel : Time.IsZero machine.DeletionTimestamp = true)
    (href : machine.Status.NodeRef = none)
    (hid : machine.Spec.ProviderID = some id) (hne : id ≠ "")
    (hparse : lib.NewProviderID id = .error e) :
    reconcileNodeRef lib r fuel ctx cluster machine
        = some { err := some (Error.external e), machine := machine, calls := [] }
      ∧ (∀ d format args,
          Error.external e ≠ Error.Wrapf (Error.RequeueAfterError d) format args)
      ∧ machine.Status.NodeRef = none := by
  refine ⟨?_, ?_, href⟩
  · unfold reconcileNodeRef
    simp only [hdel, href, hid, hne, hparse]
    simp
  · intro d format args h
    cases h

/-- C9 exercised: a Machine declaring `no-scheme-here`. -/
theorem reconcileNodeRef_malformed_identity_witness :
    reconcileNodeRef specNoderefutil (reconcilerWith readerTwoPages) 2 (Context.request false)
        clusterC1 machineMalformed
        = some { err := some (Error.external InvalidIdentity), machine := machineMalformed,
                 calls := [] }
      ∧ (∀ d format args,
          Error.external InvalidIdentity ≠ Error.Wrapf (Error.RequeueAfterError d) format args)
      ∧ machineMalformed.Status.NodeRef = none :=
  reconcileNodeRef_malformed_identity specNoderefutil (reconcilerWith readerTwoPages) 2
    (Context.request false) clusterC1 machineMalformed "no-scheme-here" InvalidIdentity
    rfl rfl rfl (by decide) rfl

/-- C10 (remote reader unavailable). For a Machine that passes the deletion,
already-bound, no-identity and parse guards, when `Tracker.GetClient` returns the error
`e`: `reconcileNodeRef` returns `e` as it is, its only call is that `GetClient` (no `List`
call, no event), and the Machine, so its nil NodeRef, is unchanged. -/
theorem reconcileNodeRef_reader_unavailable (lib : Noderefutil) (r : MachineReconciler)
    (fuel : Nat) (ctx : Context) (cluster : Cluster) (machine : Machine) (id : String)
    (providerID : lib.ProviderID) (e : ExternalError)
    (hdel : Time.IsZero machine.DeletionTimestamp = true)
    (href : machine.Status.NodeRef = none)
    (hid : machine.Spec.ProviderID = some id) (hne : id ≠ "")
    (hparse : lib.NewProviderID id = .ok providerID)
    (hclient : r.Tracker.GetClient ctx (ObjectKeyOf cluster) = .error e) :
    reconcileNodeRef lib r fuel ctx cluster machine
        = some { err := some (Error.external e), machine := machine,
                 calls := [Call.GetClient ctx (ObjectKeyOf cluster)] }
      ∧ listRequestsOf [Call.GetClient ctx (ObjectKeyOf cluster)] = []
      ∧ machine.Status.NodeRef = none := by
  refine ⟨?_, rfl, href⟩
  unfold reconcileNodeRef
  simp only [hdel, href, hid, hne, hparse, hclient]
  simp

/-- C10 exercised: the tracker answers `connection refused`. -/
theorem reconcileNodeRef_reader_unavailable_witness :
    reconcileNodeRef specNoderefutil reconcilerUnavailable 2 (Context.request false)
        clusterC1 machineM1
        = some { err := some (Error.external { text := "connection refused" }),
                 machine := machineM1,
                 calls := [Call.GetClient (Context.request false) (ObjectKeyOf clusterC1)] }
      ∧ listRequestsOf [Call.GetClient (Context.request false) (ObjectKeyOf clusterC1)] = []
      ∧ machineM1.Status.NodeRef = none :=
  reconcileNodeRef_reader_unavailable specNoderefutil reconcilerUnavailable 2
    (Context.request false) clusterC1 machineM1 "docker://m1" dockerM1
    { text := "connection refused" } rfl rfl rfl (by decide) rfl rfl

/-! ## Shapes of the outcome -/

/-- An error returned by `getNodeReference` is the sentinel or the error, other than the
sentinel, of a failed fetch of the traversal. -/
theorem getNodeReference_error_cases (lib : Noderefutil) (c : Reader)
    (providerID : lib.ProviderID) (fuel : Nat) (err : Error) (made : List ListRequest)
    (h : getNodeReference lib c providerID fuel = some (.error err, made)) :
    err = Error.ErrNodeNotFound
      ∨ ∃ n e, err = Error.external e ∧ c.fetchError n = some (ListError.other e) := by
  obtain ⟨n, ans, _, _, hfetch, _, hres⟩ :=
    fetch_of_loop lib c providerID fuel [] {} (.error err) made h
  cases ans with
  | error le =>
    simp only [loopResult] at hres
    injection hres with hres
    cases le with
    | ErrNodeNotFound => exact Or.inl hres
    | other e =>
      exact Or.inr ⟨n, e, hres,
        (fetchError_eq_some_iff c n (ListError.other e)).mpr ⟨made, hfetch⟩⟩
  | ok nodeList =>
    left
    simp only [loopResult] at hres
    cases hr : rangeItems lib providerID nodeList.Items with
    | none =>
      rw [hr] at hres
      injection hres
    | some ref => simp [hr] at hres

/-- Every outcome of `reconcileNodeRef` has one of six shapes: a guard returned nil, the
declared identity failed to parse, the reader could not be obtained, the scan found no
match, the scan failed, or the scan found a match. -/
theorem reconcileNodeRef_cases (lib : Noderefutil) (r : MachineReconciler)
    (fuel : Nat) (ctx : Context) (cluster : Cluster) (machine : Machine) (out : Outcome)
    (h : reconcileNodeRef lib r fuel ctx cluster machine = some out) :
    out = { err := none, machine := machine, calls := [] }
    ∨ (∃ id e, machine.Spec.ProviderID = some id ∧ lib.NewProviderID id = .error e
        ∧ out = { err := some (Error.external e), machine := machine, calls := [] })
    ∨ (∃ e, r.Tracker.GetClient ctx (ObjectKeyOf cluster) = .error e
        ∧ out = { err := some (Error.external e), machine := machine,
                  calls := [Call.GetClient ctx (ObjectKeyOf cluster)] })
    ∨ (∃ c providerID made, r.Tracker.GetClient ctx (ObjectKeyOf cluster) = .ok c
        ∧ getNodeReference lib c providerID fuel = some (.error Error.ErrNodeNotFound, made)
        ∧ out = { err := some (Error.Wrapf (Error.RequeueAfterError (20 * Second))
                            noMatchFormat [machine.Name, machine.Namespace]),
                  machine := machine,
                  calls := Call.GetClient ctx (ObjectKeyOf cluster)
                            :: made.map Call.ListNodes })
    ∨ (∃ c providerID made err, r.Tracker.GetClient ctx (ObjectKeyOf cluster) = .ok c
        ∧ getNodeReference lib c providerID fuel = some (.error err, made)
        ∧ err ≠ Error.ErrNodeNotFound
        ∧ out = { err := some err, machine := machine,
                  calls := Call.GetClient ctx (ObjectKeyOf cluster)
                            :: made.map Call.ListNodes ++
                    [Call.Event machine EventTypeWarning "FailedSetNodeRef"
                      (Message.ofError err)] })
    ∨ (∃ c providerID made nodeRef, r.Tracker.GetClient ctx (ObjectKeyOf cluster) = .ok c
        ∧ getNodeReference lib c providerID fuel = some (.ok nodeRef, made)
        ∧ machine.Status.NodeRef = none
        ∧ out = { err := none,
                  machine := { machine with
                                Status := { machine.Status with NodeRef := some nodeRef } },
                  calls := Call.GetClient ctx (ObjectKeyOf cluster)
                            :: made.map Call.ListNodes ++
                    [Call.Event
                      { machine with
                          Status := { machine.Status with NodeRef := some nodeRef } }
                      EventTypeNormal "SuccessfulSetNodeRef" (Message.text nodeRef.Name)] }) := by
  unfold reconcileNodeRef at h
  split at h
  · cases h; exact Or.inl rfl
  · split at h
    · cases h; exact Or.inl rfl
    · rename_i href
      have href' : machine.Status.NodeRef = none := by simpa using href
      split at h
      · cases h; exact Or.inl rfl
      · rename_i id hid
        split at h
        · cases h; exact Or.inl rfl
        · split at h
          · rename_i e hparse
            cases h
            exact Or.inr (Or.inl ⟨id, e, hid, hparse, rfl⟩)
          · rename_i providerID hparse
            simp only at h
            split at h
            · rename_i e hclient
              cases h
              exact Or.inr (Or.inr (Or.inl ⟨e, hclient, rfl⟩))
            · rename_i c hclient
              split at h
              · cases h
              · rename_i err made hscan
                split at h
                · rename_i herr
                  cases h
                  subst herr
                  exact Or.inr (Or.inr (Or.inr (Or.inl ⟨c, providerID, made, hclient, hscan, rfl⟩)))
                · rename_i herr
                  cases h
                  exact Or.inr (Or.inr (Or.inr (Or.inr (Or.inl
                    ⟨c, providerID, made, err, hclient, hscan, herr, rfl⟩))))
              · rename_i nodeRef made hscan
                cases h
                exact Or.inr (Or.inr (Or.inr (Or.inr (Or.inr
                  ⟨c, providerID, made, nodeRef, hclient, hscan, href', rfl⟩))))

theorem eventsOf_scan_calls (ctx : Context) (key : ObjectKey) (made : List ListRequest)
    (rest : List Call) :
    eventsOf (Call.GetClient ctx key :: made.map Call.ListNodes ++ rest) = eventsOf rest := by
  show eventsOf (Call.GetClient ctx key :: (made.map Call.ListNodes ++ rest)) = eventsOf rest
  simp only [eventsOf]
  exact eventsOf_listCalls made rest

theorem listRequestsOf_scan_calls (ctx : Context) (key : ObjectKey)
    (made : List ListRequest) (rest : List Call) :
    listRequestsOf (Call.GetClient ctx key :: made.map Call.ListNodes ++ rest)
      = made ++ listRequestsOf rest := by
  show listRequestsOf (Call.GetClient ctx key :: (made.map Call.ListNodes ++ rest))
    = made ++ listRequestsOf rest
  simp only [listRequestsOf]
  exact listRequestsOf_listCalls made rest

/-! ## Reports -/

/-- C11, as the code has it. When `reconcileNodeRef` ends in a hard failure (an error
other than the retry-after error), either a page fetch of the scan failed, and then
exactly one event is recorded, a Warning on the Machine whose message is the text of that
error; or the declared identity failed to parse or `GetClient` failed, and then the error
is returned and no event is recorded. -/
theorem reconcileNodeRef_hard_failure_report (lib : Noderefutil) (r : MachineReconciler)
    (fuel : Nat) (ctx : Context) (cluster : Cluster) (machine : Machine) (out : Outcome)
    (err : Error)
    (h : reconcileNodeRef lib r fuel ctx cluster machine = some out)
    (herr : out.err = some err)
    (hhard : ∀ d format args, err ≠ Error.Wrapf (Error.RequeueAfterError d) format args) :
    (∃ c n e, r.Tracker.GetClient ctx (ObjectKeyOf cluster) = .ok c
        ∧ c.fetchError n = some (ListError.other e) ∧ err = Error.external e
        ∧ eventsOf out.calls = [(EventTypeWarning, "FailedSetNodeRef", Message.ofError err)]
        ∧ Call.Event machine EventTypeWarning "FailedSetNodeRef" (Message.ofError err)
            ∈ out.calls)
    ∨ (∃ e, err = Error.external e ∧ eventsOf out.calls = []
        ∧ ((∃ id, machine.Spec.ProviderID = some id ∧ lib.NewProviderID id = .error e)
            ∨ r.Tracker.GetClient ctx (ObjectKeyOf cluster) = .error e)) := by
  rcases reconcileNodeRef_cases lib r fuel ctx cluster machine out h with
    hout | ⟨id, e, hid, hparse, hout⟩ | ⟨e, hclient, hout⟩
    | ⟨c, providerID, made, hclient, hscan, hout⟩
    | ⟨c, providerID, made, err0, hclient, hscan, hne, hout⟩
    | ⟨c, providerID, made, nodeRef, hclient, hscan, href, hout⟩
  · subst hout
    simp at herr
  · subst hout
    simp only [Option.some.injEq] at herr
    exact Or.inr ⟨e, herr.symm, rfl, Or.inl ⟨id, hid, hparse⟩⟩
  · subst hout
    simp only [Option.some.injEq] at herr
    exact Or.inr ⟨e, herr.symm, rfl, Or.inr hclient⟩
  · subst hout
    simp only [Option.some.injEq] at herr
    exact absurd herr.symm (hhard _ _ _)
  · subst hout
    simp only [Option.some.injEq] at herr
    subst herr
    rcases getNodeReference_error_cases lib c providerID fuel err0 made hscan with
      hnf | ⟨n, e, he, hfail⟩
    · exact absurd hnf hne
    · refine Or.inl ⟨c, n, e, hclient, hfail, he, eventsOf_scan_calls _ _ _ _, ?_⟩
      simp
  · subst hout
    simp at herr

/-- C11 exercised: the run whose second page fetch fails. -/
theorem reconcileNodeRef_hard_failure_report_witness :
    (∃ c n e, (reconcilerWith readerFailing).Tracker.GetClient (Context.request false)
          (ObjectKeyOf clusterC1) = .ok c
        ∧ c.fetchError n = some (ListError.other e)
        ∧ Error.external { text := "context deadline exceeded" } = Error.external e
        ∧ eventsOf
            [Call.GetClient (Context.request false) (ObjectKeyOf clusterC1),
             Call.ListNodes { ctx := Context.TODO, Continue := "" },
             Call.ListNodes { ctx := Context.TODO, Continue := "p2" },
             Call.Event machineM1 EventTypeWarning "FailedSetNodeRef"
               (Message.ofError (Error.external { text := "context deadline exceeded" }))]
          = [(EventTypeWarning, "FailedSetNodeRef",
              Message.ofError (Error.external { text := "context deadline exceeded" }))]
        ∧ Call.Event machineM1 EventTypeWarning "FailedSetNodeRef"
            (Message.ofError (Error.external { text := "context deadline exceeded" }))
            ∈ [Call.GetClient (Context.request false) (ObjectKeyOf clusterC1),
               Call.ListNodes { ctx := Context.TODO, Continue := "" },
               Call.ListNodes { ctx := Context.TODO, Continue := "p2" },
               Call.Event machineM1 EventTypeWarning "FailedSetNodeRef"
                 (Message.ofError (Error.external { text := "context deadline exceeded" }))])
    ∨ (∃ e, Error.external { text := "context deadline exceeded" } = Error.external e
        ∧ eventsOf
            [Call.GetClient (Context.request false) (ObjectKeyOf clusterC1),
             Call.ListNodes { ctx := Context.TODO, Continue := "" },
             Call.ListNodes { ctx := Context.TODO, Continue := "p2" },
             Call.Event machineM1 EventTypeWarning "FailedSetNodeRef"
               (Message.ofError (Error.external { text := "context deadline exceeded" }))]
          = []
        ∧ ((∃ id, machineM1.Spec.ProviderID = some id
              ∧ specNoderefutil.NewProviderID id = .error e)
            ∨ (reconcilerWith readerFailing).Tracker.GetClient (Context.request false)
                (ObjectKeyOf clusterC1) = .error e)) :=
  reconcileNodeRef_hard_failure_report specNoderefutil (reconcilerWith readerFailing) 2
    (Context.request false) clusterC1 machineM1
    { err := some (Error.external { text := "context deadline exceeded" }),
      machine := machineM1,
      calls := [Call.GetClient (Context.request false) (ObjectKeyOf clusterC1),
                Call.ListNodes { ctx := Context.TODO, Continue := "" },
                Call.ListNodes { ctx := Context.TODO, Continue := "p2" },
                Call.Event machineM1 EventTypeWarning "FailedSetNodeRef"
                  (Message.ofError (Error.external { text := "context deadline exceeded" }))] }
    (Error.external { text := "context deadline exceeded" }) rfl rfl
    (by intro d format args h; cases h)

/-- C11 as stated fails: a Machine whose declared identity does not parse, and a Machine
whose reader cannot be obtained, both end in a hard failure with no event recorded. -/
theorem reconcileNodeRef_hard_failure_unreported :
    (∃ out, reconcileNodeRef specNoderefutil (reconcilerWith readerTwoPages) 2
          (Context.request false) clusterC1 machineMalformed = some out
        ∧ out.err = some (Error.external InvalidIdentity)
        ∧ eventsOf out.calls = [])
    ∧ (∃ out, reconcileNodeRef specNoderefutil reconcilerUnavailable 2
          (Context.request false) clusterC1 machineM1 = some out
        ∧ out.err = some (Error.external { text := "connection refused" })
        ∧ eventsOf out.calls = []) :=
  ⟨⟨_, rfl, rfl, rfl⟩, ⟨_, rfl, rfl, rfl⟩⟩

/-- C12 (reporter called at most once). Every outcome of one invocation of
`reconcileNodeRef` carries at most one event, and none when the returned error is the
retry-after error of the no-match case. -/
theorem reconcileNodeRef_at_most_one_event (lib : Noderefutil) (r : MachineReconciler)
    (fuel : Nat) (ctx : Context) (cluster : Cluster) (machine : Machine) (out : Outcome)
    (h : reconcileNodeRef lib r fuel ctx cluster machine = some out) :
    (eventsOf out.calls).length ≤ 1
      ∧ ∀ d format args,
          out.err = some (Error.Wrapf (Error.RequeueAfterError d) format args) →
          eventsOf out.calls = [] := by
  rcases reconcileNodeRef_cases lib r fuel ctx cluster machine out h with
    hout | ⟨id, e, hid, hparse, hout⟩ | ⟨e, hclient, hout⟩
    | ⟨c, providerID, made, hclient, hscan, hout⟩
    | ⟨c, providerID, made, err0, hclient, hscan, hne, hout⟩
    | ⟨c, providerID, made, nodeRef, hclient, hscan, href, hout⟩
  · subst hout
    exact ⟨by simp [eventsOf], fun _ _ _ _ => rfl⟩
  · subst hout
    exact ⟨by simp [eventsOf], fun _ _ _ _ => rfl⟩
  · subst hout
    exact ⟨by simp [eventsOf], fun _ _ _ _ => rfl⟩
  · subst hout
    have hev : eventsOf (Call.GetClient ctx (ObjectKeyOf cluster) :: made.map Call.ListNodes)
        = [] := by
      have := eventsOf_scan_calls ctx (ObjectKeyOf cluster) made []
      simpa [eventsOf] using this
    exact ⟨by simp [hev], fun _ _ _ _ => hev⟩
  · subst hout
    have hev := eventsOf_scan_calls ctx (ObjectKeyOf cluster) made
      [Call.Event machine EventTypeWarning "FailedSetNodeRef" (Message.ofError err0)]
    refine ⟨le_of_eq (congrArg List.length hev), ?_⟩
    intro d format args hreq
    rcases getNodeReference_error_cases lib c providerID fuel err0 made hscan with
      hnf | ⟨n, e, he, _⟩
    · exact absurd hnf hne
    · subst he
      simp at hreq
  · subst hout
    have hev := eventsOf_scan_calls ctx (ObjectKeyOf cluster) made
      [Call.Event { machine with Status := { machine.Status with NodeRef := some nodeRef } }
        EventTypeNormal "SuccessfulSetNodeRef" (Message.text nodeRef.Name)]
    refine ⟨le_of_eq (congrArg List.length hev), ?_⟩
    intro d format args hreq
    simp at hreq

/-- C12 exercised: the run against the inventory without a match. -/
theorem reconcileNodeRef_at_most_one_event_witness :
    (eventsOf
        [Call.GetClient (Context.request false) (ObjectKeyOf clusterC1),
         Call.ListNodes { ctx := Context.TODO, Continue := "" },
         Call.ListNodes { ctx := Context.TODO, Continue := "p2" }]).length ≤ 1
      ∧ ∀ d format args,
          some (Error.Wrapf (Error.RequeueAfterError (20 * Second)) noMatchFormat
                  ["m1", "default"])
            = some (Error.Wrapf (Error.RequeueAfterError d) format args) →
          eventsOf
            [Call.GetClient (Context.request false) (ObjectKeyOf clusterC1),
             Call.ListNodes { ctx := Context.TODO, Continue := "" },
             Call.ListNodes { ctx := Context.TODO, Continue := "p2" }] = [] :=
  reconcileNodeRef_at_most_one_event specNoderefutil (reconcilerWith readerNoMatch) 2
    (Context.request false) clusterC1 machineM1
    { err := some (Error.Wrapf (Error.RequeueAfterError (20 * Second)) noMatchFormat
                    ["m1", "default"]),
      machine := machineM1,
      calls := [Call.GetClient (Context.request false) (ObjectKeyOf clusterC1),
                Call.ListNodes { ctx := Context.TODO, Continue := "" },
                Call.ListNodes { ctx := Context.TODO, Continue := "p2" }] }
    rfl

/-! ## Contexts -/

/-- C13 evaluated at a failing input. The caller's context is cancelled and the reader
fails every request made under a cancelled context; yet each `List` request of the scan
carries `context.TODO()`, so both pages are fetched, the call returns nil and the NodeRef
is set. Only `GetClient` receives the caller's context. -/
theorem reconcileNodeRef_list_ignores_caller_context :
    readerHonouringContext.ListNodes [] { ctx := Context.request true, Continue := "" }
        = .error (ListError.other { text := "context canceled" })
      ∧ reconcileNodeRef specNoderefutil (reconcilerWith readerHonouringContext) 2
          (Context.request true) clusterC1 machineM1
        = some
            { err := none,
              machine := { machineM1 with Status := { NodeRef := some (referenceOf nodeM1) } },
              calls :=
                [Call.GetClient (Context.request true) (ObjectKeyOf clusterC1),
                 Call.ListNodes { ctx := Context.TODO, Continue := "" },
                 Call.ListNodes { ctx := Context.TODO, Continue := "p2" },
                 Call.Event
                   { machineM1 with Status := { NodeRef := some (referenceOf nodeM1) } }
                   EventTypeNormal "SuccessfulSetNodeRef" (Message.text "n1")] } :=
  ⟨rfl, rfl⟩

/-! ## Provider identities -/

theorem specNewProviderID_ok (raw : String) (p : SpecProviderID)
    (h : specNewProviderID raw = .ok p) :
    ∃ scheme resourceID, splitFirstSeparator raw.data = some (scheme, resourceID)
      ∧ scheme ≠ [] ∧ resourceID ≠ []
      ∧ p = { scheme := String.mk scheme, resourceID := String.mk resourceID } := by
  unfold specNewProviderID at h
  split at h
  · cases h
  · split at h
    · cases h
    · rename_i scheme resourceID hsplit
      split at h
      · cases h
      · rename_i hne
        injection h with h
        exact ⟨scheme, resourceID, hsplit, fun hs => hne (Or.inl hs),
          fun hr => hne (Or.inr hr), h.symm⟩

/-- C14 (join predicate), on the parser and comparison modelled from the specification.
For raw strings `a` and `b` that both parse, `Equals` holds of the parsed values exactly
when splitting `a` and `b` on their first separator gives the same (scheme, resourceID)
pair, character by character; this is the test the scan applies to a Node carrying `b`.
So `docker://x` equals `docker://x` and differs from `docker://y`, from `aws://x` and
from `Docker://x`. -/
theorem specEquals_join_predicate (a b : String) (pa pb : SpecProviderID)
    (ha : specNewProviderID a = .ok pa) (hb : specNewProviderID b = .ok pb) :
    (specEquals pa pb = true ↔ splitFirstSeparator a.data = splitFirstSeparator b.data)
      ∧ (∀ node : Node, node.Spec.ProviderID = b →
          nodeMatches specNoderefutil pa node = specEquals pa pb)
      ∧ specMatchRaw "docker://x" "docker://x" = some true
      ∧ specMatchRaw "docker://x" "docker://y" = some false
      ∧ specMatchRaw "docker://x" "aws://x" = some false
      ∧ specMatchRaw "docker://x" "Docker://x" = some false := by
  obtain ⟨sa, ra, hsa, _, _, hpa⟩ := specNewProviderID_ok a pa ha
  obtain ⟨sb, rb, hsb, _, _, hpb⟩ := specNewProviderID_ok b pb hb
  refine ⟨?_, ?_, rfl, rfl, rfl, rfl⟩
  · rw [hsa, hsb, hpa, hpb]
    simp [specEquals, String.ext_iff]
  · intro node hnode
    have hb' : specNoderefutil.NewProviderID node.Spec.ProviderID = .ok pb := by
      rw [hnode]; exact hb
    unfold nodeMatches
    rw [hb']
    rfl

/-- C14 exercised: `docker://x` against `docker://x`. -/
theorem specEquals_join_predicate_witness :
    (specEquals { scheme := "docker", resourceID := "x" }
          { scheme := "docker", resourceID := "x" } = true
        ↔ splitFirstSeparator "docker://x".data = splitFirstSeparator "docker://x".data)
      ∧ (∀ node : Node, node.Spec.ProviderID = "docker://x" →
          nodeMatches specNoderefutil { scheme := "docker", resourceID := "x" } node
            = specEquals { scheme := "docker", resourceID := "x" }
                { scheme := "docker", resourceID := "x" })
      ∧ specMatchRaw "docker://x" "docker://x" = some true
      ∧ specMatchRaw "docker://x" "docker://y" = some false
      ∧ specMatchRaw "docker://x" "aws://x" = some false
      ∧ specMatchRaw "docker://x" "Docker://x" = some false :=
  specEquals_join_predicate "docker://x" "docker://x"
    { scheme := "docker", resourceID := "x" } { scheme := "docker", resourceID := "x" } rfl rfl

/-- C15, as the code has it, on the parser modelled from the specification. A raw string
that is empty, has no separator, or leaves an empty resource component after the split
fails to parse; a Node carrying it is skipped by the scan, and a Machine that is not
deleting and has no NodeRef and declares it, when it is non-empty, gets the parse error
back as a hard failure with no call made. -/
theorem specNewProviderID_rejects (raw : String)
    (h : raw = "" ∨ splitFirstSeparator raw.data = none
          ∨ ∃ scheme, splitFirstSeparator raw.data = some (scheme, [])) :
    specNewProviderID raw = .error InvalidIdentity
      ∧ (∀ (providerID : SpecProviderID) (node : Node) (rest : List Node),
          node.Spec.ProviderID = raw →
          rangeItems specNoderefutil providerID (node :: rest)
            = rangeItems specNoderefutil providerID rest)
      ∧ (∀ (r : MachineReconciler) (fuel : Nat) (ctx : Context) (cluster : Cluster)
            (machine : Machine),
          Time.IsZero machine.DeletionTimestamp = true →
          machine.Status.NodeRef = none →
          machine.Spec.ProviderID = some raw → raw ≠ "" →
          reconcileNodeRef specNoderefutil r fuel ctx cluster machine
            = some { err := some (Error.external InvalidIdentity), machine := machine,
                     calls := [] }) := by
  have hfail : specNewProviderID raw = .error InvalidIdentity := by
    unfold specNewProviderID
    rcases h with h | h | ⟨scheme, h⟩
    · simp [h]
    · split
      · rfl
      · simp [h]
    · split
      · rfl
      · simp [h]
  refine ⟨hfail, ?_, ?_⟩
  · intro providerID node rest hnode
    have hn : specNoderefutil.NewProviderID node.Spec.ProviderID = .error InvalidIdentity := by
      rw [hnode]; exact hfail
    conv_lhs => unfold rangeItems
    simp only [hn]
  · intro r fuel ctx cluster machine hdel href hid hne
    have hn : specNoderefutil.NewProviderID raw = .error InvalidIdentity := hfail
    unfold reconcileNodeRef
    simp only [hdel, href, hid, hne, hn]
    simp

/-- C15 exercised: the raw string `no-scheme-here`, which has no separator. -/
theorem specNewProviderID_rejects_witness :
    specNewProviderID "no-scheme-here" = .error InvalidIdentity
      ∧ (∀ (providerID : SpecProviderID) (node : Node) (rest : List Node),
          node.Spec.ProviderID = "no-scheme-here" →
          rangeItems specNoderefutil providerID (node :: rest)
            = rangeItems specNoderefutil providerID rest)
      ∧ (∀ (r : MachineReconciler) (fuel : Nat) (ctx : Context) (cluster : Cluster)
            (machine : Machine),
          Time.IsZero machine.DeletionTimestamp = true →
          machine.Status.NodeRef = none →
          machine.Spec.ProviderID = some "no-scheme-here" → "no-scheme-here" ≠ "" →
          reconcileNodeRef specNoderefutil r fuel ctx cluster machine
            = some { err := some (Error.external InvalidIdentity), machine := machine,
                     calls := [] }) :=
  specNewProviderID_rejects "no-scheme-here" (Or.inr (Or.inl rfl))

/-- C15 as stated fails: the non-empty string `no-scheme-here` does not parse, and a
Machine declaring it that is being deleted gets nil back, not a hard failure. -/
theorem reconcileNodeRef_unparsable_on_deleting_machine :
    specNewProviderID "no-scheme-here" = .error InvalidIdentity
      ∧ machineDeleting.Spec.ProviderID = some "no-scheme-here"
      ∧ ∃ out, reconcileNodeRef specNoderefutil (reconcilerWith readerTwoPages) 2
            (Context.request false) clusterC1 machineDeleting = some out
          ∧ out.err = none :=
  ⟨rfl, rfl, _, rfl, rfl⟩

/-! ## Cursor threading -/

/-- The requests made by the loop: they extend the requests made before, the first new
one carries the cursor in hand, and any request that has a successor was answered with a
page whose non-empty cursor the successor carries. -/
theorem loop_requests_threaded (lib : Noderefutil) (c : Reader)
    (providerID : lib.ProviderID) :
    ∀ (fuel : Nat) (made : List ListRequest) (nodeList : NodeList)
      (res : Except Error ObjectReference) (reqs : List ListRequest),
      getNodeReferenceLoop lib c providerID fuel made nodeList = some (res, reqs) →
      (∃ tail, reqs = made ++ { ctx := Context.TODO, Continue := nodeList.Continue } :: tail)
        ∧ ∀ pre req next post, reqs = pre ++ req :: next :: post →
            made.length ≤ pre.length →
            ∃ nl, c.ListNodes pre req = .ok nl ∧ nl.Continue ≠ ""
              ∧ next = { ctx := Context.TODO, Continue := nl.Continue } := by
  intro fuel
  induction fuel with
  | zero =>
    intro made nodeList res reqs h
    simp [getNodeReferenceLoop] at h
  | succ fuel ih =>
    intro made nodeList res reqs h
    have hshort : ∀ (rs : List ListRequest),
        rs = made ++ [{ ctx := Context.TODO, Continue := nodeList.Continue }] →
        (∃ tail, rs = made ++ { ctx := Context.TODO, Continue := nodeList.Continue } :: tail)
          ∧ ∀ pre req next post, rs = pre ++ req :: next :: post →
              made.length ≤ pre.length →
              ∃ nl, c.ListNodes pre req = .ok nl ∧ nl.Continue ≠ ""
                ∧ next = { ctx := Context.TODO, Continue := nl.Continue } := by
      intro rs hrs
      refine ⟨⟨[], hrs⟩, ?_⟩
      intro pre req next post hdec hlen
      have := congrArg List.length (hrs.symm.trans hdec)
      simp at this
      omega
    unfold getNodeReferenceLoop at h
    simp only at h
    cases hl : c.ListNodes made { ctx := Context.TODO, Continue := nodeList.Continue } with
    | error e =>
      rw [hl] at h
      simp only [Option.some.injEq, Prod.mk.injEq] at h
      exact hshort reqs h.2.symm
    | ok page =>
      rw [hl] at h
      simp only at h
      cases hr : rangeItems lib providerID page.Items with
      | some ref =>
        rw [hr] at h
        simp only [Option.some.injEq, Prod.mk.injEq] at h
        exact hshort reqs h.2.symm
      | none =>
        rw [hr] at h
        simp only at h
        by_cases hc : page.Continue = ""
        · simp only [hc, if_true, Option.some.injEq, Prod.mk.injEq] at h
          exact hshort reqs h.2.symm
        · simp only [hc, if_false] at h
          obtain ⟨⟨tail, htail⟩, hthread⟩ := ih _ page res reqs h
          have hreqs : reqs = made ++ { ctx := Context.TODO, Continue := nodeList.Continue }
              :: { ctx := Context.TODO, Continue := page.Continue } :: tail := by
            rw [htail]; simp
          refine ⟨⟨_, hreqs⟩, ?_⟩
          intro pre req next post hdec hlen
          by_cases hlt : made.length < pre.length
          · exact hthread pre req next post hdec (by simp; omega)
          · have heq : pre.length = made.length := by omega
            obtain ⟨hpre, hrest⟩ := List.append_inj (hdec.symm.trans hreqs) heq
            simp only [List.cons.injEq] at hrest
            obtain ⟨hreq, hnext, _⟩ := hrest
            subst hpre
            subst hreq
            exact ⟨page, hl, hc, hnext⟩

/-- C16, as the code has it. The `List` requests of a run of `getNodeReference` that
returns start with one request carrying the empty cursor; every request that is followed
by another was answered without error by a page with a non-empty cursor, and the request
that follows carries exactly that cursor, under `context.TODO()`. So a cursor handed back
by a page is requested by the one call that follows that page, and nothing is requested
after an error or after an empty cursor. For an empty inventory the single fetch is
made and the result is `ErrNodeNotFound`. -/
theorem getNodeReference_cursor_threading (lib : Noderefutil) (c : Reader)
    (providerID : lib.ProviderID) (fuel : Nat) :
    (∀ res reqs, getNodeReference lib c providerID fuel = some (res, reqs) →
        (∃ tail, reqs = { ctx := Context.TODO, Continue := "" } :: tail)
          ∧ ∀ pre req next post, reqs = pre ++ req :: next :: post →
              ∃ nl, c.ListNodes pre req = .ok nl ∧ nl.Continue ≠ ""
                ∧ next = { ctx := Context.TODO, Continue := nl.Continue })
      ∧ (c.ListNodes [] { ctx := Context.TODO, Continue := "" }
            = .ok { Items := [], Continue := "" } →
          getNodeReference lib c providerID (fuel + 1)
            = some (.error Error.ErrNodeNotFound, [{ ctx := Context.TODO, Continue := "" }])) := by
  constructor
  · intro res reqs h
    obtain ⟨⟨tail, htail⟩, hthread⟩ := loop_requests_threaded lib c providerID fuel [] {} res reqs h
    refine ⟨⟨tail, by simpa using htail⟩, ?_⟩
    intro pre req next post hdec
    exact hthread pre req next post hdec (by simp)
  · intro hempty
    have hempty' : c.ListNodes [] { ctx := Context.TODO, Continue := ({} : NodeList).Continue }
        = .ok { Items := [], Continue := "" } := hempty
    unfold getNodeReference getNodeReferenceLoop
    simp only
    rw [hempty']
    simp [rangeItems]

/-- C16 exercised: the two-page inventory and an empty inventory. -/
theorem getNodeReference_cursor_threading_witness :
    ((∃ tail, [({ ctx := Context.TODO, Continue := "" } : ListRequest),
            { ctx := Context.TODO, Continue := "p2" }]
          = { ctx := Context.TODO, Continue := "" } :: tail)
        ∧ ∀ pre req next post,
            [({ ctx := Context.TODO, Continue := "" } : ListRequest),
              { ctx := Context.TODO, Continue := "p2" }] = pre ++ req :: next :: post →
            ∃ nl, readerTwoPages.ListNodes pre req = .ok nl ∧ nl.Continue ≠ ""
              ∧ next = { ctx := Context.TODO, Continue := nl.Continue })
      ∧ getNodeReference specNoderefutil
            ({ ListNodes := fun _ _ => .ok { Items := [], Continue := "" } } : Reader) dockerM1 1
          = some (.error Error.ErrNodeNotFound, [{ ctx := Context.TODO, Continue := "" }]) :=
  ⟨(getNodeReference_cursor_threading specNoderefutil readerTwoPages dockerM1 2).1
      (.ok (referenceOf nodeM1)) _ rfl,
    (getNodeReference_cursor_threading specNoderefutil
      { ListNodes := fun _ _ => .ok { Items := [], Continue := "" } } dockerM1 0).2 rfl⟩

/-- C16 as stated fails: against a reader that hands back the cursor `a` twice, the
cursor `a` is fetched twice. -/
theorem getNodeReference_cursor_fetched_twice :
    getNodeReference specNoderefutil readerRepeatingCursor dockerM1 3
        = some (.error Error.ErrNodeNotFound,
            [{ ctx := Context.TODO, Continue := "" }, { ctx := Context.TODO, Continue := "a" },
             { ctx := Context.TODO, Continue := "a" }])
      ∧ ([({ ctx := Context.TODO, Continue := "" } : ListRequest),
            { ctx := Context.TODO, Continue := "a" },
            { ctx := Context.TODO, Continue := "a" }].map (fun req => req.Continue)).count "a"
          = 2 :=
  ⟨rfl, by decide⟩

/-! ## Termination -/

theorem loopStops_iff (lib : Noderefutil) (providerID : lib.ProviderID)
    (ans : Except ListError NodeList) :
    loopStops lib providerID ans = true
      ↔ ((∃ e, ans = .error e)
          ∨ ∃ nl, ans = .ok nl
              ∧ (nl.Continue = "" ∨ ∃ x ∈ nl.Items, nodeMatches lib providerID x = true)) := by
  cases ans with
  | error e => simp [loopStops]
  | ok nl =>
    have hsome : (rangeItems lib providerID nl.Items).isSome = true
        ↔ ∃ x ∈ nl.Items, nodeMatches lib providerID x = true := by
      rw [← Option.ne_none_iff_isSome, Ne, rangeItems_eq_none_iff]
      simp
    constructor
    · intro h
      refine Or.inr ⟨nl, rfl, ?_⟩
      simp only [loopStops, Bool.or_eq_true, beq_iff_eq] at h
      rcases h with h | h
      · exact Or.inr (hsome.mp h)
      · exact Or.inl h
    · rintro (⟨e, he⟩ | ⟨nl2, hnl, hs⟩)
      · cases he
      · injection hnl with hnl
        subst hnl
        simp only [loopStops, Bool.or_eq_true, beq_iff_eq]
        rcases hs with hs | hs
        · exact Or.inr hs
        · exact Or.inl (hsome.mpr hs)

/-- A stopping answer at fetch `m` of the traversal bounds the run: with more than `m`
units of fuel the loop returns after at most `m + 1` further requests. -/
theorem loop_returns_within (lib : Noderefutil) (c : Reader) (providerID : lib.ProviderID) :
    ∀ (m : Nat) (made : List ListRequest) (nodeList : NodeList)
      (ans : Except ListError NodeList) (reqs : List ListRequest),
      c.fetchFrom m made nodeList = some (ans, reqs) →
      loopStops lib providerID ans = true →
      ∀ fuel, m < fuel →
        ∃ res done, getNodeReferenceLoop lib c providerID fuel made nodeList = some (res, done)
          ∧ done.length ≤ made.length + m + 1 := by
  intro m
  induction m with
  | zero =>
    intro made nodeList ans reqs hfetch hstop fuel hfuel
    refine ⟨_, reqs, loop_of_fetch lib c providerID 0 made nodeList ans reqs
      (by intro k hk; omega) hfetch hstop fuel hfuel, ?_⟩
    have := fetchFrom_length c 0 made nodeList ans reqs hfetch
    omega
  | succ m ih =>
    intro made nodeList ans reqs hfetch hstop fuel hfuel
    obtain ⟨next, hnext, hcont⟩ := fetchFrom_succ_isSome c m made nodeList _ hfetch
    cases hr : rangeItems lib providerID next.Items with
    | some ref =>
      have h0 : c.fetchFrom 0 made nodeList
          = some (.ok next, made ++ [{ ctx := Context.TODO, Continue := nodeList.Continue }]) := by
        simp [Reader.fetchFrom, hnext]
      refine ⟨_, _, loop_of_fetch lib c providerID 0 made nodeList (.ok next) _
        (by intro k hk; omega) h0 (by simp [loopStops, hr]) fuel (by omega), ?_⟩
      simp
    | none =>
      obtain ⟨fuel, rfl⟩ : ∃ f, fuel = f + 1 := ⟨fuel - 1, by omega⟩
      have hstep : getNodeReferenceLoop lib c providerID (fuel + 1) made nodeList
          = getNodeReferenceLoop lib c providerID fuel
              (made ++ [{ ctx := Context.TODO, Continue := nodeList.Continue }]) next := by
        conv_lhs => unfold getNodeReferenceLoop
        simp [hnext, hr, hcont]
      rw [fetchFrom_succ_of_ok c m made nodeList next hnext hcont] at hfetch
      obtain ⟨res, done, hloop, hlen⟩ := ih _ next ans reqs hfetch hstop fuel (by omega)
      refine ⟨res, done, hstep.trans hloop, ?_⟩
      simp at hlen
      omega

theorem readerEndless_fetchFrom :
    ∀ (k : Nat) (made : List ListRequest) (nodeList : NodeList),
      ∃ reqs, readerEndless.fetchFrom k made nodeList
        = some (.ok { Items := [nodeM0], Continue := "more" }, reqs) := by
  intro k
  induction k with
  | zero => intro made nodeList; exact ⟨_, rfl⟩
  | succ k ih =>
    intro made nodeList
    obtain ⟨reqs, h⟩ := ih (made ++ [{ ctx := Context.TODO, Continue := nodeList.Continue }])
      { Items := [nodeM0], Continue := "more" }
    refine ⟨reqs, ?_⟩
    rw [fetchFrom_succ_of_ok readerEndless k made nodeList
      { Items := [nodeM0], Continue := "more" } rfl (by decide)]
    exact h

/-- C17 (termination of the scan). Counting fetches from 0: when fetch `m` of the
traversal (the fetch number `m + 1`) fails, returns an empty cursor or returns a page with
a matching Node, `getNodeReference` run with more than `m` units of fuel returns after at
most `m + 1` requests. Every return of the loop is at such a fetch. And when every fetch
of the traversal returns, without error, a page with a non-empty cursor and no matching
Node, `getNodeReference` returns for no amount of fuel. -/
theorem getNodeReference_termination (lib : Noderefutil) (c : Reader)
    (providerID : lib.ProviderID) :
    (∀ m ans reqs, c.fetch m = some (ans, reqs) →
        ((∃ e, ans = .error e)
          ∨ ∃ nl, ans = .ok nl
              ∧ (nl.Continue = "" ∨ ∃ x ∈ nl.Items, nodeMatches lib providerID x = true)) →
        ∀ fuel, m < fuel →
          ∃ res made, getNodeReference lib c providerID fuel = some (res, made)
            ∧ made.length ≤ m + 1)
      ∧ (∀ fuel res made, getNodeReference lib c providerID fuel = some (res, made) →
          ∃ m ans, c.fetch m = some (ans, made) ∧ made.length = m + 1
            ∧ ((∃ e, ans = .error e)
                ∨ ∃ nl, ans = .ok nl
                    ∧ (nl.Continue = ""
                        ∨ ∃ x ∈ nl.Items, nodeMatches lib providerID x = true)))
      ∧ ((∀ k, ∃ nl reqs, c.fetch k = some (.ok nl, reqs) ∧ nl.Continue ≠ ""
              ∧ ∀ x ∈ nl.Items, nodeMatches lib providerID x = false) →
          ∀ fuel, getNodeReference lib c providerID fuel = none) := by
  refine ⟨?_, ?_, ?_⟩
  · intro m ans reqs hfetch hstop fuel hfuel
    obtain ⟨res, done, hloop, hlen⟩ :=
      loop_returns_within lib c providerID m [] {} ans reqs hfetch
        ((loopStops_iff lib providerID ans).mpr hstop) fuel hfuel
    exact ⟨res, done, hloop, by simpa using hlen⟩
  · intro fuel res made h
    obtain ⟨m, ans, _, _, hfetch, hstop, _⟩ :=
      fetch_of_loop lib c providerID fuel [] {} res made h
    have hlen := fetchFrom_length c m [] {} ans made hfetch
    exact ⟨m, ans, hfetch, by simpa using hlen, (loopStops_iff lib providerID ans).mp hstop⟩
  · intro hall fuel
    cases h : getNodeReference lib c providerID fuel with
    | none => rfl
    | some x =>
      obtain ⟨res, made⟩ := x
      obtain ⟨m, ans, _, _, hfetch, hstop, _⟩ :=
        fetch_of_loop lib c providerID fuel [] {} res made h
      obtain ⟨nl, reqs, hk, hcont, hno⟩ := hall m
      have hsame : (ans, made) = (Except.ok nl, reqs) :=
        Option.some.inj (hfetch.symm.trans hk)
      have hans : ans = .ok nl := (Prod.mk.inj hsame).1
      subst hans
      rcases (loopStops_iff lib providerID (.ok nl)).mp hstop with ⟨e, he⟩ | ⟨nl2, hnl, hs⟩
      · cases he
      · injection hnl with hnl
        subst hnl
        rcases hs with hs | ⟨x, hx, hm⟩
        · exact absurd hs hcont
        · rw [hno x hx] at hm
          cases hm

/-- C17 exercised: the two-page inventory, whose second fetch returns the match, and a
reader that always returns a non-empty cursor with no matching Node. -/
theorem getNodeReference_termination_witness :
    (∃ res made, getNodeReference specNoderefutil readerTwoPages dockerM1 2 = some (res, made)
        ∧ made.length ≤ 1 + 1)
      ∧ ∀ fuel, getNodeReference specNoderefutil readerEndless dockerM1 fuel = none :=
  ⟨(getNodeReference_termination specNoderefutil readerTwoPages dockerM1).1 1
      (.ok { Items := [nodeBad, nodeM1, nodeM1Again], Continue := "" })
      [{ ctx := Context.TODO, Continue := "" }, { ctx := Context.TODO, Continue := "p2" }] rfl
      (Or.inr ⟨_, rfl, Or.inl rfl⟩) 2 (by decide),
    (getNodeReference_termination specNoderefutil readerEndless dockerM1).2.2
      (fun k =>
        let ⟨reqs, h⟩ := readerEndless_fetchFrom k [] {}
        ⟨{ Items := [nodeM0], Continue := "more" }, reqs, h, by decide,
          fun x hx => by
            obtain rfl : x = nodeM0 := by simpa using hx
            rfl⟩)⟩

end NodeRef
